import Mathlib

/-!
Settings resolution of the BOSH agent (`settings/settings.go`)

A shallow embedding of the settings package: the data model (`Settings`, `Disks`,
`DiskSettings`, `Env`, `Network`, `Networks`), the disk normaliser
(`PersistentDiskSettings`, `EphemeralDiskSettings`), the network classifier
(`IsDHCP`, `IsPreconfigured`, `DefaultNetworkFor`, `DefaultIP`, `NetworkForMac`) and the
resolver (`GetMbusURL`, `GetBlobstore`, `GetNtpServers`, `GetSwapSizeInBytes`,
`GetParallel`, `IsNATSMutualTLSEnabled`), followed by the properties proved about them.

Conventions of the embedding.

* A Go value of type `interface{}` is a `Value`. The constructors are the dynamic types
  that a decoded settings document can hold; `Value.null` is the nil interface.
* A Go `map[string]T` is a list of key/value pairs. Indexing `m[k]` is `mapGet`, and a
  `for ... range m` loop runs over the pairs in the order of the list, so a list is one
  enumeration of the map. Theorems quantify over every list, hence over every
  enumeration order.
* A Go slice is a list; the nil slice and the empty slice are both `[]`.
* A Go `uint64` is a natural number below `uint64Size`, and its arithmetic is reduced
  modulo `uint64Size`; a pointer that may be nil is an `Option`.
* A failed type assertion `x.(string)` is a run-time panic. Functions that can panic
  return `Except Panic _`, and `Except.error` means that the Go function did not return.
-/

namespace settings

/-! ## Dynamic values and maps -/

/-- A dynamically typed value held in a Go `interface{}`. The payload of `number` is never
inspected by the settings package. -/
inductive Value where
  | null
  | bool (b : Bool)
  | number (n : Int)
  | str (s : String)
  | array (items : List Value)
  | object (fields : List (String × Value))

/-- A Go `map[string]interface{}`. -/
abbrev Hash := List (String × Value)

/-- Map indexing with the comma-ok form, `v, ok := m[key]`: `none` is `ok == false`. -/
def mapGet {β : Type} (m : List (String × β)) (key : String) : Option β :=
  match m with
  | [] => none
  | (k, v) :: rest => if k = key then some v else mapGet rest key

/-- The run-time panics of the package. -/
inductive Panic where
  /-- A type assertion `x.(string)` on a value whose dynamic type is not `string`. -/
  | interfaceConversion
  deriving DecidableEq, Repr

/-- The type assertion `v.(string)`. -/
def assertString (v : Value) : Except Panic String :=
  match v with
  | .str s => .ok s
  | _ => .error .interfaceConversion

/-! ## Data model -/

/-- Modelled from the spec: the filesystem type `disk.FileSystemType` is declared in the
package `platform/disk`, which is outside the embedded sources; it is a string-like name of
a filesystem and its zero value is the empty string. -/
abbrev FileSystemType := String

structure ISCSISettings where
  InitiatorName : String := ""
  Username : String := ""
  Target : String := ""
  Password : String := ""
  deriving DecidableEq, Repr

structure DiskSettings where
  ID : String := ""
  DeviceID : String := ""
  VolumeID : String := ""
  Lun : String := ""
  HostDeviceID : String := ""
  Path : String := ""
  ISCSISettings : ISCSISettings := {}
  FileSystemType : FileSystemType := ""
  MountOptions : List String := []
  deriving DecidableEq, Repr

structure Blobstore where
  Type_ : String := ""
  Options : Hash := []

structure Disks where
  System : String := ""
  Ephemeral : Value := .null
  Persistent : Hash := []
  RawEphemeral : List DiskSettings := []

structure CertKeyPair where
  CA : String := ""
  PrivateKey : String := ""
  Certificate : String := ""
  deriving DecidableEq, Repr

structure MBus where
  Cert : CertKeyPair := {}
  URLs : List String := []

structure IPv6 where
  Enable : Bool := false

structure BoshEnv where
  Password : String := ""
  KeepRootPassword : Bool := false
  RemoveDevTools : Bool := false
  RemoveStaticLibraries : Bool := false
  AuthorizedKeys : List String := []
  SwapSizeInMB : Option Nat := none
  Mbus : MBus := {}
  IPv6 : IPv6 := {}
  Blobstores : List Blobstore := []
  NTP : List String := []
  Parallel : Option Int := none

structure Env where
  Bosh : BoshEnv := {}
  PersistentDiskFS : FileSystemType := ""
  PersistentDiskMountOptions : List String := []

structure VM where
  Name : String := ""

abbrev NetworkType := String

def NetworkTypeDynamic : NetworkType := "dynamic"

def NetworkTypeVIP : NetworkType := "vip"

structure Route where
  Destination : String := ""
  Gateway : String := ""
  Netmask : String := ""
  deriving DecidableEq, Repr

structure Network where
  Type_ : NetworkType := ""
  IP : String := ""
  Netmask : String := ""
  Gateway : String := ""
  Resolved : Bool := false
  UseDHCP : Bool := false
  Default : List String := []
  DNS : List String := []
  Mac : String := ""
  Preconfigured : Bool := false
  Routes : List Route := []
  deriving DecidableEq, Repr

/-- The Go type `map[string]Network`, as one enumeration of its entries. -/
abbrev Networks := List (String × Network)

structure Settings where
  AgentID : String := ""
  Blobstore : Blobstore := {}
  Disks : Disks := {}
  Env : Env := {}
  Networks : Networks := []
  NTP : List String := []
  Mbus : String := ""
  VM : VM := {}

/-! ## Disk normalisation -/

/-- One guarded assignment `if x, ok := hash[key]; ok { target = x.(string) }`: `assign`
stores the asserted string in its target field. -/
def assignIfPresent {σ : Type} (hash : Hash) (key : String) (assign : σ → String → σ)
    (cur : σ) : Except Panic σ :=
  match mapGet hash key with
  | some x =>
    match assertString x with
    | .ok str => .ok (assign cur str)
    | .error e => .error e
  | none => .ok cur

/-- The five device assignments shared by the persistent and the ephemeral normaliser
(`settings.go` lines 108-122 and 161-175), in source order. -/
def assignDeviceFields (hashSettings : Hash) (diskSettings : DiskSettings) :
    Except Panic DiskSettings :=
  match assignIfPresent hashSettings "path" (fun d x => { d with Path := x }) diskSettings with
  | .error e => .error e
  | .ok d1 =>
  match assignIfPresent hashSettings "volume_id" (fun d x => { d with VolumeID := x }) d1 with
  | .error e => .error e
  | .ok d2 =>
  match assignIfPresent hashSettings "id" (fun d x => { d with DeviceID := x }) d2 with
  | .error e => .error e
  | .ok d3 =>
  match assignIfPresent hashSettings "lun" (fun d x => { d with Lun := x }) d3 with
  | .error e => .error e
  | .ok d4 =>
  assignIfPresent hashSettings "host_device_id" (fun d x => { d with HostDeviceID := x }) d4

/-- The four assignments from a nested `iscsi_settings` hash (lines 126-137). -/
def assignISCSIFields (hashISCSISettings : Hash) (iscsi : ISCSISettings) :
    Except Panic ISCSISettings :=
  match assignIfPresent hashISCSISettings "username" (fun i x => { i with Username := x }) iscsi with
  | .error e => .error e
  | .ok i1 =>
  match assignIfPresent hashISCSISettings "password" (fun i x => { i with Password := x }) i1 with
  | .error e => .error e
  | .ok i2 =>
  match assignIfPresent hashISCSISettings "initiator_name"
      (fun i x => { i with InitiatorName := x }) i2 with
  | .error e => .error e
  | .ok i3 =>
  assignIfPresent hashISCSISettings "target" (fun i x => { i with Target := x }) i3

/-- The `iscsi_settings` block (lines 124-139): the key is looked up, and its value is used
only when it is itself a hash. -/
def assignISCSI (hashSettings : Hash) (diskSettings : DiskSettings) :
    Except Panic DiskSettings :=
  match mapGet hashSettings "iscsi_settings" with
  | some (.object hashISCSISettings) =>
    match assignISCSIFields hashISCSISettings diskSettings.ISCSISettings with
    | .ok i => .ok { diskSettings with ISCSISettings := i }
    | .error e => .error e
  | _ => .ok diskSettings

/-- The body of the `if key == diskID` branch of `PersistentDiskSettings` (lines 105-149),
run on the raw value `settings` of the matching entry. -/
def persistentEntry (s : Settings) (diskID : String) (settings : Value) :
    Except Panic (DiskSettings × Bool) :=
  let diskSettings : DiskSettings := { ID := diskID }
  let filled : Except Panic DiskSettings :=
    match settings with
    | .object hashSettings =>
      match assignDeviceFields hashSettings diskSettings with
      | .ok d => assignISCSI hashSettings d
      | .error e => .error e
    | other =>
      match assertString other with
      | .ok path =>
        match assertString other with
        | .ok volumeID => .ok { diskSettings with Path := path, VolumeID := volumeID }
        | .error e => .error e
      | .error e => .error e
  match filled with
  | .ok d =>
    .ok ({ d with FileSystemType := s.Env.PersistentDiskFS,
                  MountOptions := s.Env.PersistentDiskMountOptions }, true)
  | .error e => .error e

/-- The loop `for key, settings := range s.Disks.Persistent` of `PersistentDiskSettings`
over the entries still to be visited, and the final `return diskSettings, false`. -/
def persistentScan (s : Settings) (diskID : String) :
    List (String × Value) → Except Panic (DiskSettings × Bool)
  | [] => .ok ({}, false)
  | (key, settings) :: rest =>
    if key = diskID then persistentEntry s diskID settings
    else persistentScan s diskID rest

/-- The method `func (s Settings) PersistentDiskSettings(diskID string) (DiskSettings, bool)`. -/
def Settings.PersistentDiskSettings (s : Settings) (diskID : String) :
    Except Panic (DiskSettings × Bool) :=
  persistentScan s diskID s.Disks.Persistent

/-- The method `func (s Settings) EphemeralDiskSettings() DiskSettings`. -/
def Settings.EphemeralDiskSettings (s : Settings) : Except Panic DiskSettings :=
  let diskSettings : DiskSettings := {}
  match s.Disks.Ephemeral with
  | .null => .ok diskSettings
  | .object hashSettings => assignDeviceFields hashSettings diskSettings
  | other =>
    match assertString other with
    | .ok path =>
      match assertString other with
      | .ok volumeID => .ok { diskSettings with Path := path, VolumeID := volumeID }
      | .error e => .error e
    | .error e => .error e

/-! ## Network classification -/

/-- The method `func (n Network) isDynamic() bool`. -/
def Network.isDynamic (n : Network) : Bool :=
  decide (n.Type_ = NetworkTypeDynamic)

/-- The method `func (n Network) IsVIP() bool`. -/
def Network.IsVIP (n : Network) : Bool :=
  decide (n.Type_ = NetworkTypeVIP)

/-- The method `func (n Network) IsDHCP() bool`. -/
def Network.IsDHCP (n : Network) : Bool :=
  if n.IsVIP then false
  else if n.isDynamic then true
  else if n.UseDHCP then true
  else
    let isStatic : Bool := decide (n.IP ≠ "") && decide (n.Netmask ≠ "")
    n.Resolved || !isStatic

/-- The method `func (n Networks) IsPreconfigured() bool`: the loop over the entries still
to be visited and the final `return true`. -/
def Networks.IsPreconfigured : Networks → Bool
  | [] => true
  | (_, network) :: rest =>
    if network.IsVIP then Networks.IsPreconfigured rest
    else if !network.Preconfigured then false
    else Networks.IsPreconfigured rest

end settings

namespace settings

/-! ## Vocabulary of the properties -/

/-- The dynamic type of the value is `string` (the scalar shape). -/
def Value.isString : Value → Bool
  | .str _ => true
  | _ => false

/-- The dynamic type of the value is `map[string]interface{}` (the structured shape). -/
def Value.isHash : Value → Bool
  | .object _ => true
  | _ => false

/-- The key is absent from the hash, or it holds a string. -/
def holdsString (hash : Hash) (key : String) : Bool :=
  match mapGet hash key with
  | none => true
  | some v => v.isString

/-- The value read under a key: the string it holds when the key is present with a string,
and `dflt` otherwise. -/
def fieldOr (hash : Hash) (key : String) (dflt : String) : String :=
  match mapGet hash key with
  | some (.str v) => v
  | _ => dflt

/-- The value of an optional key: a present key gives its string and an absent key gives the
empty string. -/
def stringAt (hash : Hash) (key : String) : String :=
  fieldOr hash key ""

/-- The five device keys of a structured disk value hold strings where they are present. -/
def deviceFieldsHoldStrings (hash : Hash) : Bool :=
  holdsString hash "path" && holdsString hash "volume_id" && holdsString hash "id" &&
    holdsString hash "lun" && holdsString hash "host_device_id"

/-- The four keys of a nested iSCSI hash hold strings where they are present. -/
def iscsiFieldsHoldStrings (hash : Hash) : Bool :=
  holdsString hash "username" && holdsString hash "password" &&
    holdsString hash "initiator_name" && holdsString hash "target"

/-- The recognised fields of a structured disk value hold strings: the five device keys,
and the four iSCSI keys when `iscsi_settings` is present and is a hash. -/
def recognisedFieldsHoldStrings (hash : Hash) : Bool :=
  deviceFieldsHoldStrings hash &&
    (match mapGet hash "iscsi_settings" with
     | some (.object iscsi) => iscsiFieldsHoldStrings iscsi
     | _ => true)

/-- The zero value `DiskSettings{}`, every field written out. -/
def DiskSettings.zero : DiskSettings :=
  { ID := "", DeviceID := "", VolumeID := "", Lun := "", HostDeviceID := "", Path := "",
    ISCSISettings := { InitiatorName := "", Username := "", Target := "", Password := "" },
    FileSystemType := "", MountOptions := [] }

/-- The iSCSI sub-settings produced from a structured value: read from the nested hash when
`iscsi_settings` is present and is a hash, and left untouched otherwise. -/
def iscsiOf (hash : Hash) (cur : ISCSISettings) : ISCSISettings :=
  match mapGet hash "iscsi_settings" with
  | some (.object i) =>
    { cur with Username := fieldOr i "username" cur.Username,
               Password := fieldOr i "password" cur.Password,
               InitiatorName := fieldOr i "initiator_name" cur.InitiatorName,
               Target := fieldOr i "target" cur.Target }
  | _ => cur

/-- A raw disk value of one of the two accepted shapes: a string, or a hash whose recognised
fields hold strings. -/
def Value.wellShaped : Value → Bool
  | .str _ => true
  | .object hash => recognisedFieldsHoldStrings hash
  | _ => false

/-- The value is the nil interface. -/
def Value.isNil : Value → Bool
  | .null => true
  | _ => false

/-! ## Sample settings documents -/

/-- The structured disk value of the source comment, `{"path": "/dev/sdc", "volume_id": "3"}`. -/
def sampleHash : Hash :=
  [("path", .str "/dev/sdc"), ("volume_id", .str "3")]

/-- A nested `iscsi_settings` hash with its four keys. -/
def sampleISCSINested : Hash :=
  [("username", .str "alice"), ("password", .str "secret"),
   ("initiator_name", .str "iqn.2007-05.com:init"), ("target", .str "10.0.0.9")]

/-- A structured disk value with a nested `iscsi_settings` hash and a key the normaliser
does not know. -/
def sampleISCSIHash : Hash :=
  [("id", .str "dev-7"), ("lun", .str "0"), ("persistent_disk_fs", .str "ext4"),
   ("iscsi_settings", .object sampleISCSINested)]

/-- An environment that sets the persistent-disk filesystem and mount options. -/
def sampleEnv : Env :=
  { PersistentDiskFS := "xfs", PersistentDiskMountOptions := ["noatime", "nodiratime"] }

/-- A settings document with a scalar, two structured and one malformed persistent disk,
and a scalar ephemeral disk. -/
def sampleSettings : Settings :=
  { AgentID := "agent-1",
    Disks := { System := "/dev/sda",
               Ephemeral := .str "/dev/sdb",
               Persistent := [("vol-scalar", .str "/dev/sdf"), ("vol-hash", .object sampleHash),
                 ("vol-iscsi", .object sampleISCSIHash), ("vol-number", .number 3)] },
    Env := sampleEnv }

/-- A raw ephemeral value of one of the two accepted shapes: a string, or a hash whose five
device keys hold strings. -/
def Value.deviceShaped : Value → Bool
  | .str _ => true
  | .object hash => deviceFieldsHoldStrings hash
  | _ => false

/-- The sample document with a structured ephemeral disk that carries `iscsi_settings`. -/
def sampleSettingsISCSIEphemeral : Settings :=
  { sampleSettings with
    Disks := { sampleSettings.Disks with Ephemeral := .object sampleISCSIHash } }

/-- The sample document without an ephemeral disk. -/
def sampleSettingsNoEphemeral : Settings :=
  { sampleSettings with Disks := { sampleSettings.Disks with Ephemeral := .null } }

/-- A manual network with a static address. -/
def sampleManual : Network :=
  { IP := "10.0.0.4", Netmask := "255.255.255.0", Gateway := "10.0.0.1", Default := ["dns"],
    Mac := "aa:bb:cc:dd:ee:01", Preconfigured := true }

/-- A floating-address network. -/
def sampleVIP : Network :=
  { Type_ := NetworkTypeVIP, IP := "52.0.0.8", UseDHCP := true, Resolved := true }

/-- A dynamic network whose `use_dhcp` flag is not set. -/
def sampleDynamic : Network :=
  { Type_ := NetworkTypeDynamic, IP := "10.0.1.4", Netmask := "255.255.255.0",
    UseDHCP := false, Preconfigured := true }

/-- A network collection with one manual, one floating and one dynamic network. -/
def sampleNetworks : Networks :=
  [("bosh", sampleManual), ("vip", sampleVIP), ("dyn", sampleDynamic)]

/-! ## Default selection, hardware-address lookup and the resolver -/

/-- The zero value `Network{}`, every field written out. -/
def Network.zero : Network :=
  { Type_ := "", IP := "", Netmask := "", Gateway := "", Resolved := false, UseDHCP := false,
    Default := [], DNS := [], Mac := "", Preconfigured := false, Routes := [] }

/-- The function `func stringArrayContains(stringArray []string, str string) bool`. -/
def stringArrayContains : List String → String → Bool
  | [], _ => false
  | s :: rest, str => if s = str then true else stringArrayContains rest str

/-- The method `func (n Network) IsDefaultFor(category string) bool`. -/
def Network.IsDefaultFor (n : Network) (category : String) : Bool :=
  stringArrayContains n.Default category

/-- Map indexing in the plain form `n[i]`, which gives the zero value for a missing key. -/
def Networks.index (n : Networks) (i : String) : Network :=
  match mapGet n i with
  | some net => net
  | none => Network.zero

/-- The loop `for i := range n` of `NetworkForMac` over the entries still to be visited,
each visited through `n[i]`, and the final `return Network{}, false`. -/
def networkForMacLoop (n : Networks) (mac : String) : List (String × Network) → Network × Bool
  | [] => (Network.zero, false)
  | (i, _) :: rest =>
    if (n.index i).Mac = mac then (n.index i, true)
    else networkForMacLoop n mac rest

/-- The method `func (n Networks) NetworkForMac(mac string) (Network, bool)`. -/
def Networks.NetworkForMac (n : Networks) (mac : String) : Network × Bool :=
  networkForMacLoop n mac n

/-- The second loop of `DefaultNetworkFor` (lines 349-353) over the entries still to be
visited, and the final `return Network{}, false`. -/
def defaultNetworkScan (category : String) : List (String × Network) → Network × Bool
  | [] => (Network.zero, false)
  | (_, net) :: rest =>
    if net.IsDefaultFor category then (net, true)
    else defaultNetworkScan category rest

/-- The method `func (n Networks) DefaultNetworkFor(category string) (Network, bool)`: with
`len(n) == 1` the first loop returns in its first iteration. -/
def Networks.DefaultNetworkFor (n : Networks) (category : String) : Network × Bool :=
  if n.length = 1 then
    match n with
    | (_, net) :: _ => (net, true)
    | [] => defaultNetworkScan category n
  else defaultNetworkScan category n

/-- The loop of `DefaultIP` (lines 368-375) over the entries still to be visited, started
with the current value of the named result `ip`. -/
def defaultIPLoop : List (String × Network) → String → String
  | [], ip => ip
  | (_, networkSettings) :: rest, ip =>
    let ip1 := if ip = "" then networkSettings.IP else ip
    let ip2 := if 0 < networkSettings.Default.length then networkSettings.IP else ip1
    defaultIPLoop rest ip2

/-- The method `func (n Networks) DefaultIP() (ip string, found bool)`. -/
def Networks.DefaultIP (n : Networks) : String × Bool :=
  let ip := defaultIPLoop n ""
  let found := if ip ≠ "" then true else false
  (ip, found)

/-- The method `func (s Settings) GetMbusURL() string`. -/
def Settings.GetMbusURL (s : Settings) : String :=
  if h : 0 < s.Env.Bosh.Mbus.URLs.length then s.Env.Bosh.Mbus.URLs[0]
  else s.Mbus

/-- The method `func (s Settings) GetBlobstore() Blobstore`. -/
def Settings.GetBlobstore (s : Settings) : settings.Blobstore :=
  if h : 0 < s.Env.Bosh.Blobstores.length then s.Env.Bosh.Blobstores[0]
  else s.Blobstore

/-- The method `func (s Settings) GetNtpServers() []string`. -/
def Settings.GetNtpServers (s : Settings) : List String :=
  if 0 < s.Env.Bosh.NTP.length then s.Env.Bosh.NTP
  else s.NTP

/-- The number of values of the Go type `uint64`. -/
def uint64Size : Nat := 2 ^ 64

/-- Multiplication of two `uint64` values, which wraps around. -/
def mulUint64 (a b : Nat) : Nat := (a * b) % uint64Size

/-- The method `func (e Env) GetSwapSizeInBytes() *uint64`; the nil pointer is `none`. -/
def Env.GetSwapSizeInBytes (e : Env) : Option Nat :=
  match e.Bosh.SwapSizeInMB with
  | none => none
  | some swapSizeInMB =>
    let result := mulUint64 (mulUint64 swapSizeInMB 1024) 1024 % uint64Size
    some result

/-- The method `func (e Env) GetParallel() *int`; the nil pointer is `none`. -/
def Env.GetParallel (e : Env) : Option Int :=
  let result : Int := 5
  let result := match e.Bosh.Parallel with
    | some parallel => parallel
    | none => result
  some result

/-- The method `func (e Env) IsNATSMutualTLSEnabled() bool`; `len` of a string is its length
in bytes. -/
def Env.IsNATSMutualTLSEnabled (e : Env) : Bool :=
  decide (0 < e.Bosh.Mbus.Cert.Certificate.utf8ByteSize) &&
    decide (0 < e.Bosh.Mbus.Cert.PrivateKey.utf8ByteSize)

/-- A second manual network that is also a default for `dns`. -/
def sampleSecond : Network :=
  { IP := "10.0.2.4", Netmask := "255.255.255.0", Gateway := "10.0.2.1",
    Default := ["dns", "gateway"], Mac := "aa:bb:cc:dd:ee:02" }

/-- A manual network that declares no defaults. -/
def samplePlain : Network :=
  { IP := "10.0.3.4", Netmask := "255.255.255.0", Mac := "aa:bb:cc:dd:ee:03" }

/-- A dynamic network that declares defaults and has no address yet. -/
def sampleUnresolved : Network :=
  { Type_ := NetworkTypeDynamic, Default := ["dns", "gateway"] }

/-- The sample document with an environment that overrides the message bus, the blobstore
and the time servers. -/
def sampleSettingsOverride : Settings :=
  { AgentID := "agent-1",
    Blobstore := { Type_ := "local", Options := [("blobstore_path", .str "/var/vcap/cache")] },
    NTP := ["0.pool.ntp.org", "1.pool.ntp.org"],
    Mbus := "nats://b",
    Env := { Bosh := { Mbus := { URLs := ["nats://a"] },
                       Blobstores := [{ Type_ := "dav" }, { Type_ := "s3" }],
                       NTP := ["time.example.org"] } } }

/-- An environment with a swap size of 4 megabytes and a configured parallelism of 0. -/
def sampleBoshEnv : Env :=
  { Bosh := { SwapSizeInMB := some 4, Parallel := some 0,
              Mbus := { Cert := { CA := "ca", PrivateKey := "key", Certificate := "cert" } } } }

/-- An environment whose swap size in megabytes is 2 to the power 44. -/
def sampleHugeSwapEnv : Env :=
  { Bosh := { SwapSizeInMB := some 17592186044416 } }

/-- The hash without the entries of one key, as after `delete(hash, key)`. -/
def removeKey (hash : Hash) (key : String) : Hash :=
  match hash with
  | [] => []
  | (k, v) :: rest => if k = key then removeKey rest key else (k, v) :: removeKey rest key

/-- A structured disk value whose `iscsi_settings` key holds a string. -/
def sampleISCSIStringHash : Hash :=
  [("path", .str "/dev/sdg"), ("iscsi_settings", .str "disabled"), ("lun", .str "1")]

/-- A structured disk value whose `iscsi_settings` key holds a string and whose `path` key
holds a number. -/
def sampleBadPathHash : Hash :=
  [("path", .number 5), ("iscsi_settings", .str "disabled")]

/-- A settings document with the two structured values above as persistent disks. -/
def sampleSettingsISCSIString : Settings :=
  { Disks := { Persistent := [("vol-string", .object sampleISCSIStringHash),
                 ("vol-bad-path", .object sampleBadPathHash)] },
    Env := sampleEnv }

/-- The same document with the `iscsi_settings` key deleted from the disk `vol-string`. -/
def sampleSettingsISCSIRemoved : Settings :=
  { Disks := { Persistent :=
                 [("vol-string", .object (removeKey sampleISCSIStringHash "iscsi_settings"))] },
    Env := sampleEnv }

/-! ## Lemmas on the normaliser -/

theorem persistentScan_eq (s : Settings) (diskID : String) (entries : List (String × Value)) :
    persistentScan s diskID entries =
      match mapGet entries diskID with
      | none => .ok ({}, false)
      | some v => persistentEntry s diskID v := by
  induction entries with
  | nil => rfl
  | cons e rest ih =>
    obtain ⟨k, v⟩ := e
    by_cases hk : k = diskID
    · simp [persistentScan, mapGet, hk]
    · simp [persistentScan, mapGet, hk, ih]

theorem assignIfPresent_eq {σ : Type} (hash : Hash) (key : String) (assign : σ → String → σ)
    (cur : σ) (get : σ → String) (hget : assign cur (get cur) = cur)
    (hs : holdsString hash key = true) :
    assignIfPresent hash key assign cur = .ok (assign cur (fieldOr hash key (get cur))) := by
  unfold assignIfPresent fieldOr
  unfold holdsString at hs
  cases hm : mapGet hash key with
  | none => simp [hget]
  | some x =>
    rw [hm] at hs
    cases x <;> simp_all [assertString, Value.isString]

theorem assignDeviceFields_eq (hash : Hash) (d : DiskSettings)
    (hs : deviceFieldsHoldStrings hash = true) :
    assignDeviceFields hash d =
      .ok { d with Path := fieldOr hash "path" d.Path,
                   VolumeID := fieldOr hash "volume_id" d.VolumeID,
                   DeviceID := fieldOr hash "id" d.DeviceID,
                   Lun := fieldOr hash "lun" d.Lun,
                   HostDeviceID := fieldOr hash "host_device_id" d.HostDeviceID } := by
  simp only [deviceFieldsHoldStrings, Bool.and_eq_true] at hs
  obtain ⟨⟨⟨⟨h1, h2⟩, h3⟩, h4⟩, h5⟩ := hs
  unfold assignDeviceFields
  rw [assignIfPresent_eq _ _ _ _ (fun c => c.Path) rfl h1]
  simp only []
  rw [assignIfPresent_eq _ _ _ _ (fun c => c.VolumeID) rfl h2]
  simp only []
  rw [assignIfPresent_eq _ _ _ _ (fun c => c.DeviceID) rfl h3]
  simp only []
  rw [assignIfPresent_eq _ _ _ _ (fun c => c.Lun) rfl h4]
  simp only []
  rw [assignIfPresent_eq _ _ _ _ (fun c => c.HostDeviceID) rfl h5]

theorem assignISCSIFields_eq (hash : Hash) (i : ISCSISettings)
    (hs : iscsiFieldsHoldStrings hash = true) :
    assignISCSIFields hash i =
      .ok { i with Username := fieldOr hash "username" i.Username,
                   Password := fieldOr hash "password" i.Password,
                   InitiatorName := fieldOr hash "initiator_name" i.InitiatorName,
                   Target := fieldOr hash "target" i.Target } := by
  simp only [iscsiFieldsHoldStrings, Bool.and_eq_true] at hs
  obtain ⟨⟨⟨h1, h2⟩, h3⟩, h4⟩ := hs
  unfold assignISCSIFields
  rw [assignIfPresent_eq _ _ _ _ (fun c => c.Username) rfl h1]
  simp only []
  rw [assignIfPresent_eq _ _ _ _ (fun c => c.Password) rfl h2]
  simp only []
  rw [assignIfPresent_eq _ _ _ _ (fun c => c.InitiatorName) rfl h3]
  simp only []
  rw [assignIfPresent_eq _ _ _ _ (fun c => c.Target) rfl h4]

theorem persistentEntry_object (s : Settings) (diskID : String) (hash : Hash)
    (hs : recognisedFieldsHoldStrings hash = true) :
    persistentEntry s diskID (.object hash) =
      .ok ({ ID := diskID,
             Path := stringAt hash "path",
             VolumeID := stringAt hash "volume_id",
             DeviceID := stringAt hash "id",
             Lun := stringAt hash "lun",
             HostDeviceID := stringAt hash "host_device_id",
             ISCSISettings := iscsiOf hash {},
             FileSystemType := s.Env.PersistentDiskFS,
             MountOptions := s.Env.PersistentDiskMountOptions }, true) := by
  simp only [recognisedFieldsHoldStrings, Bool.and_eq_true] at hs
  obtain ⟨hd, hi⟩ := hs
  unfold persistentEntry
  simp only [assignDeviceFields_eq _ _ hd]
  unfold assignISCSI iscsiOf stringAt
  cases hm : mapGet hash "iscsi_settings" with
  | none => rfl
  | some x =>
    rw [hm] at hi
    cases x with
    | object i =>
      simp only at hi
      simp only [assignISCSIFields_eq _ _ hi]
    | _ => rfl

theorem persistentEntry_str (s : Settings) (diskID x : String) :
    persistentEntry s diskID (.str x) =
      .ok ({ ID := diskID, Path := x, VolumeID := x,
             FileSystemType := s.Env.PersistentDiskFS,
             MountOptions := s.Env.PersistentDiskMountOptions }, true) := rfl

theorem persistentEntry_overlay (s : Settings) (diskID : String) (v : Value)
    (d : DiskSettings) (found : Bool) (h : persistentEntry s diskID v = .ok (d, found)) :
    d.FileSystemType = s.Env.PersistentDiskFS ∧
      d.MountOptions = s.Env.PersistentDiskMountOptions := by
  simp only [persistentEntry] at h
  split at h
  · next d1 _ =>
    simp only [Except.ok.injEq, Prod.mk.injEq] at h
    rw [← h.1]
    exact ⟨rfl, rfl⟩
  · exact absurd h (by simp)

theorem persistentEntry_malformed (s : Settings) (diskID : String) (v : Value)
    (hstr : v.isString = false) (hhash : v.isHash = false) :
    persistentEntry s diskID v = .error .interfaceConversion := by
  cases v <;> first | rfl | simp_all [Value.isString, Value.isHash]

theorem assignIfPresent_frame {σ τ : Type} (hash : Hash) (key : String)
    (assign : σ → String → σ) (cur r : σ)
    (h : assignIfPresent hash key assign cur = .ok r) (proj : σ → τ)
    (hproj : ∀ c x, proj (assign c x) = proj c) : proj r = proj cur := by
  unfold assignIfPresent at h
  split at h
  · split at h
    · simp only [Except.ok.injEq] at h
      rw [← h, hproj]
    · exact absurd h (by simp)
  · simp only [Except.ok.injEq] at h
    rw [h]

theorem assignDeviceFields_frame (hash : Hash) (d r : DiskSettings)
    (h : assignDeviceFields hash d = .ok r) :
    r.ID = d.ID ∧ r.ISCSISettings = d.ISCSISettings ∧
      r.FileSystemType = d.FileSystemType ∧ r.MountOptions = d.MountOptions := by
  have key : (r.ID, r.ISCSISettings, r.FileSystemType, r.MountOptions) =
      (d.ID, d.ISCSISettings, d.FileSystemType, d.MountOptions) := by
    unfold assignDeviceFields at h
    split at h
    · exact absurd h (by simp)
    · next d1 h1 =>
      split at h
      · exact absurd h (by simp)
      · next d2 h2 =>
        split at h
        · exact absurd h (by simp)
        · next d3 h3 =>
          split at h
          · exact absurd h (by simp)
          · next d4 h4 =>
            have e5 := assignIfPresent_frame _ _ _ _ _ h
              (fun (c : DiskSettings) => (c.ID, c.ISCSISettings, c.FileSystemType, c.MountOptions))
              (fun _ _ => rfl)
            have e4 := assignIfPresent_frame _ _ _ _ _ h4
              (fun (c : DiskSettings) => (c.ID, c.ISCSISettings, c.FileSystemType, c.MountOptions))
              (fun _ _ => rfl)
            have e3 := assignIfPresent_frame _ _ _ _ _ h3
              (fun (c : DiskSettings) => (c.ID, c.ISCSISettings, c.FileSystemType, c.MountOptions))
              (fun _ _ => rfl)
            have e2 := assignIfPresent_frame _ _ _ _ _ h2
              (fun (c : DiskSettings) => (c.ID, c.ISCSISettings, c.FileSystemType, c.MountOptions))
              (fun _ _ => rfl)
            have e1 := assignIfPresent_frame _ _ _ _ _ h1
              (fun (c : DiskSettings) => (c.ID, c.ISCSISettings, c.FileSystemType, c.MountOptions))
              (fun _ _ => rfl)
            exact e5.trans (e4.trans (e3.trans (e2.trans e1)))
  simp only [Prod.mk.injEq] at key
  exact key

theorem ephemeral_frame (s : Settings) (d : DiskSettings)
    (h : s.EphemeralDiskSettings = .ok d) :
    d.ID = "" ∧ d.ISCSISettings = {} ∧ d.FileSystemType = "" ∧ d.MountOptions = [] := by
  unfold Settings.EphemeralDiskSettings at h
  cases he : s.Disks.Ephemeral with
  | object hash =>
    rw [he] at h
    exact assignDeviceFields_frame hash {} d h
  | str x =>
    rw [he] at h
    simp only [assertString, Except.ok.injEq] at h
    rw [← h]
    exact ⟨rfl, rfl, rfl, rfl⟩
  | null =>
    rw [he] at h
    simp only [Except.ok.injEq] at h
    rw [← h]
    exact ⟨rfl, rfl, rfl, rfl⟩
  | _ =>
    rw [he] at h
    simp [assertString] at h

theorem ephemeral_returns (s : Settings) (hs : s.Disks.Ephemeral.deviceShaped = true) :
    ∃ d, s.EphemeralDiskSettings = .ok d := by
  unfold Settings.EphemeralDiskSettings
  cases he : s.Disks.Ephemeral with
  | object hash =>
    rw [he] at hs
    exact ⟨_, assignDeviceFields_eq hash {} hs⟩
  | str x => exact ⟨_, rfl⟩
  | _ =>
    rw [he] at hs
    simp [Value.deviceShaped] at hs

theorem isPreconfigured_cons_vip (name : String) (n : Network) (rest : Networks)
    (h : n.Type_ = NetworkTypeVIP) :
    Networks.IsPreconfigured ((name, n) :: rest) = Networks.IsPreconfigured rest := by
  simp [Networks.IsPreconfigured, Network.IsVIP, h]

theorem isPreconfigured_append_vip (pre post : Networks) (name : String) (n m : Network)
    (hn : n.Type_ = NetworkTypeVIP) (hm : m.Type_ = NetworkTypeVIP) :
    Networks.IsPreconfigured (pre ++ (name, n) :: post) =
      Networks.IsPreconfigured (pre ++ (name, m) :: post) := by
  induction pre with
  | nil =>
    simp only [List.nil_append]
    rw [isPreconfigured_cons_vip name n post hn, isPreconfigured_cons_vip name m post hm]
  | cons e pre ih =>
    obtain ⟨k, x⟩ := e
    simp only [List.cons_append, Networks.IsPreconfigured, List.append_eq, ih]

theorem isPreconfigured_eq_true_iff (ns : Networks) :
    Networks.IsPreconfigured ns = true ↔
      ∀ e ∈ ns, e.2.Type_ ≠ NetworkTypeVIP → e.2.Preconfigured = true := by
  induction ns with
  | nil => simp [Networks.IsPreconfigured]
  | cons e rest ih =>
    obtain ⟨k, n⟩ := e
    by_cases hv : n.Type_ = NetworkTypeVIP
    · rw [isPreconfigured_cons_vip k n rest hv, ih]
      simp [hv]
    · by_cases hp : n.Preconfigured = true
      · simp [Networks.IsPreconfigured, Network.IsVIP, hv, hp, ih]
      · simp [Networks.IsPreconfigured, Network.IsVIP, hv, hp]

/-! ## Persistent disks -/

/-- C1. For every settings value and disk id: when the id is not a key of
`Disks.Persistent`, `PersistentDiskSettings` returns `found = false` with the zero-valued
descriptor, whatever the environment holds; when the id is a key whose raw value is a string
or a hash whose recognised fields hold strings, it returns `found = true` and a descriptor
whose `ID` is the id. -/
theorem persistentDiskSettings_lookup (s : Settings) (diskID : String) :
    (mapGet s.Disks.Persistent diskID = none →
      s.PersistentDiskSettings diskID = .ok (DiskSettings.zero, false)) ∧
    (∀ v, mapGet s.Disks.Persistent diskID = some v → v.wellShaped = true →
      ∃ d, s.PersistentDiskSettings diskID = .ok (d, true) ∧ d.ID = diskID) := by
  unfold Settings.PersistentDiskSettings
  rw [persistentScan_eq]
  constructor
  · intro h
    rw [h]
    rfl
  · intro v h hv
    rw [h]
    cases v with
    | str x => exact ⟨_, persistentEntry_str s diskID x, rfl⟩
    | object hash => exact ⟨_, persistentEntry_object s diskID hash hv, rfl⟩
    | _ => simp [Value.wellShaped] at hv

theorem persistentDiskSettings_lookup_witness :
    sampleSettings.PersistentDiskSettings "vol-absent" = .ok (DiskSettings.zero, false) ∧
    (∃ d, sampleSettings.PersistentDiskSettings "vol-scalar" = .ok (d, true) ∧
      d.ID = "vol-scalar") ∧
    (∃ d, sampleSettings.PersistentDiskSettings "vol-iscsi" = .ok (d, true) ∧
      d.ID = "vol-iscsi") :=
  ⟨(persistentDiskSettings_lookup sampleSettings "vol-absent").1 rfl,
   (persistentDiskSettings_lookup sampleSettings "vol-scalar").2 (.str "/dev/sdf") rfl rfl,
   (persistentDiskSettings_lookup sampleSettings "vol-iscsi").2 (.object sampleISCSIHash)
     rfl rfl⟩

/-- C2. Dual-interpretation law: when `Disks.Persistent` maps the id to the scalar `X`,
`PersistentDiskSettings` returns a descriptor with `Path = X` and `VolumeID = X`, and with
`DeviceID`, `Lun`, `HostDeviceID` and the four iSCSI fields empty. -/
theorem persistentDiskSettings_scalar (s : Settings) (diskID X : String)
    (h : mapGet s.Disks.Persistent diskID = some (.str X)) :
    ∃ d, s.PersistentDiskSettings diskID = .ok (d, true) ∧
      d.Path = X ∧ d.VolumeID = X ∧ d.DeviceID = "" ∧ d.Lun = "" ∧ d.HostDeviceID = "" ∧
      d.ISCSISettings.Username = "" ∧ d.ISCSISettings.Password = "" ∧
      d.ISCSISettings.InitiatorName = "" ∧ d.ISCSISettings.Target = "" := by
  unfold Settings.PersistentDiskSettings
  rw [persistentScan_eq, h]
  exact ⟨_, persistentEntry_str s diskID X, rfl, rfl, rfl, rfl, rfl, rfl, rfl, rfl, rfl⟩

theorem persistentDiskSettings_scalar_witness :
    mapGet sampleSettings.Disks.Persistent "vol-scalar" = some (.str "/dev/sdf") ∧
    ∃ d, sampleSettings.PersistentDiskSettings "vol-scalar" = .ok (d, true) ∧
      d.Path = "/dev/sdf" ∧ d.VolumeID = "/dev/sdf" ∧ d.DeviceID = "" ∧ d.Lun = "" ∧
      d.HostDeviceID = "" ∧
      d.ISCSISettings.Username = "" ∧ d.ISCSISettings.Password = "" ∧
      d.ISCSISettings.InitiatorName = "" ∧ d.ISCSISettings.Target = "" :=
  ⟨rfl, persistentDiskSettings_scalar sampleSettings "vol-scalar" "/dev/sdf" rfl⟩

/-- C3. For a disk id mapped to a hash whose recognised fields hold strings,
`PersistentDiskSettings` returns with `Path`, `VolumeID`, `DeviceID`, `Lun` and
`HostDeviceID` read from the keys `path`, `volume_id`, `id`, `lun` and `host_device_id`,
each independently (a present key gives its value, an absent key the empty string); when
`iscsi_settings` holds a hash, its keys `username`, `password`, `initiator_name` and `target`
fill the iSCSI fields by the same rule. -/
theorem persistentDiskSettings_structured (s : Settings) (diskID : String) (hash : Hash)
    (h : mapGet s.Disks.Persistent diskID = some (.object hash))
    (hs : recognisedFieldsHoldStrings hash = true) :
    ∃ d, s.PersistentDiskSettings diskID = .ok (d, true) ∧
      d.Path = stringAt hash "path" ∧
      d.VolumeID = stringAt hash "volume_id" ∧
      d.DeviceID = stringAt hash "id" ∧
      d.Lun = stringAt hash "lun" ∧
      d.HostDeviceID = stringAt hash "host_device_id" ∧
      (∀ iscsi, mapGet hash "iscsi_settings" = some (.object iscsi) →
        d.ISCSISettings.Username = stringAt iscsi "username" ∧
        d.ISCSISettings.Password = stringAt iscsi "password" ∧
        d.ISCSISettings.InitiatorName = stringAt iscsi "initiator_name" ∧
        d.ISCSISettings.Target = stringAt iscsi "target") := by
  unfold Settings.PersistentDiskSettings
  rw [persistentScan_eq, h]
  refine ⟨_, persistentEntry_object s diskID hash hs, rfl, rfl, rfl, rfl, rfl, ?_⟩
  intro iscsi hi
  simp only [iscsiOf, hi]
  exact ⟨rfl, rfl, rfl, rfl⟩

theorem persistentDiskSettings_structured_witness :
    (∃ d, sampleSettings.PersistentDiskSettings "vol-hash" = .ok (d, true) ∧
      d.Path = "/dev/sdc" ∧ d.VolumeID = "3" ∧ d.DeviceID = "" ∧ d.Lun = "" ∧
      d.HostDeviceID = "") ∧
    (∃ d, sampleSettings.PersistentDiskSettings "vol-iscsi" = .ok (d, true) ∧
      d.DeviceID = "dev-7" ∧ d.Lun = "0" ∧ d.Path = "" ∧
      d.ISCSISettings.Username = "alice" ∧ d.ISCSISettings.Password = "secret" ∧
      d.ISCSISettings.InitiatorName = "iqn.2007-05.com:init" ∧
      d.ISCSISettings.Target = "10.0.0.9") := by
  constructor
  · obtain ⟨d, hd, h1, h2, h3, h4, h5, _⟩ :=
      persistentDiskSettings_structured sampleSettings "vol-hash" sampleHash rfl rfl
    exact ⟨d, hd, h1, h2, h3, h4, h5⟩
  · obtain ⟨d, hd, h1, _, h3, h4, _, h6⟩ :=
      persistentDiskSettings_structured sampleSettings "vol-iscsi" sampleISCSIHash rfl rfl
    obtain ⟨u, pw, ini, tg⟩ := h6 _ rfl
    exact ⟨d, hd, h3, h4, h1, u, pw, ini, tg⟩

/-- C4. A raw disk value that is neither a string nor a hash makes normalisation fail
instead of returning a descriptor: `PersistentDiskSettings` on a persistent entry of that
kind, and `EphemeralDiskSettings` on a non-nil ephemeral value of that kind, end in the
interface-conversion failure and return no `DiskSettings` at all. -/
theorem malformed_disk_value_fails (s : Settings) :
    (∀ diskID v, mapGet s.Disks.Persistent diskID = some v →
      v.isString = false → v.isHash = false →
      s.PersistentDiskSettings diskID = .error .interfaceConversion) ∧
    (s.Disks.Ephemeral.isNil = false →
      s.Disks.Ephemeral.isString = false → s.Disks.Ephemeral.isHash = false →
      s.EphemeralDiskSettings = .error .interfaceConversion) := by
  constructor
  · intro diskID v h hstr hhash
    unfold Settings.PersistentDiskSettings
    rw [persistentScan_eq, h]
    exact persistentEntry_malformed s diskID v hstr hhash
  · intro hnil hstr hhash
    unfold Settings.EphemeralDiskSettings
    cases he : s.Disks.Ephemeral <;> rw [he] at hnil hstr hhash <;>
      first
        | rfl
        | simp_all [Value.isNil, Value.isString, Value.isHash]

theorem malformed_disk_value_fails_witness :
    sampleSettings.PersistentDiskSettings "vol-number" = .error .interfaceConversion ∧
    ({ sampleSettings with Disks := { Ephemeral := .array [.str "/dev/sdb"] } } :
      Settings).EphemeralDiskSettings = .error .interfaceConversion :=
  ⟨(malformed_disk_value_fails sampleSettings).1 "vol-number" (.number 3) rfl rfl rfl,
   (malformed_disk_value_fails _).2 rfl rfl rfl⟩

/-- C5. For every settings value and every disk id found by `PersistentDiskSettings`, the
returned `FileSystemType` is `Env.PersistentDiskFS` and the returned `MountOptions` is
`Env.PersistentDiskMountOptions`, for scalar and structured raw values alike and whatever
keys the structured value carries; and a present id with a string or a well-formed hash is
found, so the overlay is applied to it. -/
theorem persistentDiskSettings_overlay (s : Settings) (diskID : String) :
    (∀ d, s.PersistentDiskSettings diskID = .ok (d, true) →
      d.FileSystemType = s.Env.PersistentDiskFS ∧
      d.MountOptions = s.Env.PersistentDiskMountOptions) ∧
    (∀ v, mapGet s.Disks.Persistent diskID = some v → v.wellShaped = true →
      ∃ d, s.PersistentDiskSettings diskID = .ok (d, true) ∧
        d.FileSystemType = s.Env.PersistentDiskFS ∧
        d.MountOptions = s.Env.PersistentDiskMountOptions) := by
  unfold Settings.PersistentDiskSettings
  rw [persistentScan_eq]
  constructor
  · intro d h
    cases hm : mapGet s.Disks.Persistent diskID with
    | none =>
      rw [hm] at h
      simp at h
    | some v =>
      rw [hm] at h
      exact persistentEntry_overlay s diskID v d true h
  · intro v h hv
    rw [h]
    cases v with
    | str x => exact ⟨_, persistentEntry_str s diskID x, rfl, rfl⟩
    | object hash => exact ⟨_, persistentEntry_object s diskID hash hv, rfl, rfl⟩
    | _ => simp [Value.wellShaped] at hv

theorem persistentDiskSettings_overlay_witness :
    (∃ d, sampleSettings.PersistentDiskSettings "vol-scalar" = .ok (d, true) ∧
      d.FileSystemType = "xfs" ∧ d.MountOptions = ["noatime", "nodiratime"]) ∧
    (∃ d, sampleSettings.PersistentDiskSettings "vol-iscsi" = .ok (d, true) ∧
      d.FileSystemType = "xfs" ∧ d.MountOptions = ["noatime", "nodiratime"]) :=
  ⟨(persistentDiskSettings_overlay sampleSettings "vol-scalar").2 (.str "/dev/sdf") rfl rfl,
   ⟨_, rfl, (persistentDiskSettings_overlay sampleSettings "vol-iscsi").1 _ rfl⟩⟩

/-! ## Ephemeral disks -/

/-- C6, counterexample. The sample document has the scalar ephemeral disk `/dev/sdb` and an
environment with filesystem `xfs` and two mount options; `EphemeralDiskSettings` returns a
descriptor whose `FileSystemType` and `MountOptions` are empty, not those of the
environment. -/
theorem ephemeralDiskSettings_overlay_counterexample :
    sampleSettings.EphemeralDiskSettings =
      .ok { Path := "/dev/sdb", VolumeID := "/dev/sdb", FileSystemType := "",
            MountOptions := [] } ∧
    sampleSettings.Env.PersistentDiskFS = "xfs" ∧
    sampleSettings.Env.PersistentDiskMountOptions = ["noatime", "nodiratime"] ∧
    ¬ (∀ s : Settings, ∀ d, s.Disks.Ephemeral.deviceShaped = true →
        s.EphemeralDiskSettings = .ok d →
        d.FileSystemType = s.Env.PersistentDiskFS ∧
        d.MountOptions = s.Env.PersistentDiskMountOptions) := by
  refine ⟨rfl, rfl, rfl, ?_⟩
  intro h
  have h2 := (h sampleSettings _ rfl rfl).2
  exact absurd h2 (by decide)

/-- C6, amended. The environment overlay is not applied to the ephemeral disk: every
descriptor returned by `EphemeralDiskSettings` has an empty `FileSystemType` and empty
`MountOptions`, whatever the environment holds, and a descriptor is returned whenever the
ephemeral value is a string or a hash whose device keys hold strings. -/
theorem ephemeralDiskSettings_no_overlay (s : Settings) :
    (∀ d, s.EphemeralDiskSettings = .ok d → d.FileSystemType = "" ∧ d.MountOptions = []) ∧
    (s.Disks.Ephemeral.deviceShaped = true →
      ∃ d, s.EphemeralDiskSettings = .ok d ∧ d.FileSystemType = "" ∧ d.MountOptions = []) := by
  constructor
  · intro d h
    exact ⟨(ephemeral_frame s d h).2.2.1, (ephemeral_frame s d h).2.2.2⟩
  · intro hs
    obtain ⟨d, hd⟩ := ephemeral_returns s hs
    exact ⟨d, hd, (ephemeral_frame s d hd).2.2.1, (ephemeral_frame s d hd).2.2.2⟩

theorem ephemeralDiskSettings_no_overlay_witness :
    sampleSettings.Env.PersistentDiskFS = "xfs" ∧
    ∃ d, sampleSettings.EphemeralDiskSettings = .ok d ∧
      d.FileSystemType = "" ∧ d.MountOptions = [] :=
  ⟨rfl, (ephemeralDiskSettings_no_overlay sampleSettings).2 rfl⟩

/-- C7, counterexample. The structured ephemeral value of this document carries an
`iscsi_settings` hash with `username`, `password`, `initiator_name` and `target`;
`EphemeralDiskSettings` returns the device fields and leaves all four iSCSI fields empty. -/
theorem ephemeralDiskSettings_iscsi_counterexample :
    sampleSettingsISCSIEphemeral.EphemeralDiskSettings =
      .ok { DeviceID := "dev-7", Lun := "0",
            ISCSISettings := { InitiatorName := "", Username := "", Target := "",
                               Password := "" } } ∧
    stringAt sampleISCSINested "username" = "alice" ∧
    ¬ (∀ s : Settings, ∀ hash iscsi d, s.Disks.Ephemeral = .object hash →
        mapGet hash "iscsi_settings" = some (.object iscsi) →
        iscsiFieldsHoldStrings iscsi = true →
        s.EphemeralDiskSettings = .ok d →
        d.ISCSISettings.Username = stringAt iscsi "username" ∧
        d.ISCSISettings.Password = stringAt iscsi "password" ∧
        d.ISCSISettings.InitiatorName = stringAt iscsi "initiator_name" ∧
        d.ISCSISettings.Target = stringAt iscsi "target") := by
  refine ⟨rfl, rfl, ?_⟩
  intro h
  have h2 := (h sampleSettingsISCSIEphemeral sampleISCSIHash sampleISCSINested _ rfl rfl rfl
    rfl).1
  exact absurd h2 (by decide)

/-- C7, amended. `EphemeralDiskSettings` does not read `iscsi_settings`: for every structured
ephemeral value whose device keys hold strings it returns a descriptor whose iSCSI
`Username`, `Password`, `InitiatorName` and `Target` are empty, whatever the value holds
under `iscsi_settings`. -/
theorem ephemeralDiskSettings_ignores_iscsi (s : Settings) (hash : Hash)
    (h : s.Disks.Ephemeral = .object hash) (hs : deviceFieldsHoldStrings hash = true) :
    ∃ d, s.EphemeralDiskSettings = .ok d ∧
      d.ISCSISettings.Username = "" ∧ d.ISCSISettings.Password = "" ∧
      d.ISCSISettings.InitiatorName = "" ∧ d.ISCSISettings.Target = "" := by
  obtain ⟨d, hd⟩ := ephemeral_returns s (by rw [h]; exact hs)
  have hi := (ephemeral_frame s d hd).2.1
  refine ⟨d, hd, ?_, ?_, ?_, ?_⟩ <;> rw [hi]

theorem ephemeralDiskSettings_ignores_iscsi_witness :
    mapGet sampleISCSIHash "iscsi_settings" = some (.object sampleISCSINested) ∧
    ∃ d, sampleSettingsISCSIEphemeral.EphemeralDiskSettings = .ok d ∧
      d.ISCSISettings.Username = "" ∧ d.ISCSISettings.Password = "" ∧
      d.ISCSISettings.InitiatorName = "" ∧ d.ISCSISettings.Target = "" :=
  ⟨rfl, ephemeralDiskSettings_ignores_iscsi sampleSettingsISCSIEphemeral sampleISCSIHash
    rfl rfl⟩

/-- C8. When `Disks.Ephemeral` is nil, `EphemeralDiskSettings` returns the all-empty
descriptor, whatever the environment and the other disk collections hold. -/
theorem ephemeralDiskSettings_absent (s : Settings) (h : s.Disks.Ephemeral = .null) :
    s.EphemeralDiskSettings = .ok DiskSettings.zero := by
  unfold Settings.EphemeralDiskSettings
  rw [h]
  rfl

theorem ephemeralDiskSettings_absent_witness :
    sampleSettingsNoEphemeral.Env.PersistentDiskFS = "xfs" ∧
    sampleSettingsNoEphemeral.EphemeralDiskSettings = .ok DiskSettings.zero :=
  ⟨rfl, ephemeralDiskSettings_absent sampleSettingsNoEphemeral rfl⟩

/-! ## Networks -/

/-- C9. `IsDHCP` follows the ordered rules: a network is DHCP exactly when its type is not
`vip` and it is `dynamic`, or `use_dhcp` is set, or it is marked resolved, or its IP is
empty, or its netmask is empty. In particular a `vip` network is never DHCP, a `dynamic`
network is DHCP also with `use_dhcp = false`, and a manual network that is static has a
non-empty IP, a non-empty netmask and is not marked resolved. -/
theorem isDHCP_iff (n : Network) :
    (n.IsDHCP = true ↔
      n.Type_ ≠ NetworkTypeVIP ∧
        (n.Type_ = NetworkTypeDynamic ∨ n.UseDHCP = true ∨ n.Resolved = true ∨
          n.IP = "" ∨ n.Netmask = "")) ∧
    (n.Type_ = NetworkTypeVIP → n.IsDHCP = false) ∧
    (n.Type_ = NetworkTypeDynamic → n.UseDHCP = false → n.IsDHCP = true) ∧
    (n.Type_ ≠ NetworkTypeVIP → n.Type_ ≠ NetworkTypeDynamic → n.IsDHCP = false →
      n.IP ≠ "" ∧ n.Netmask ≠ "" ∧ n.Resolved = false) := by
  have hne : NetworkTypeDynamic ≠ NetworkTypeVIP := by decide
  refine ⟨?_, ?_, ?_, ?_⟩
  · by_cases hv : n.Type_ = NetworkTypeVIP
    · simp [Network.IsDHCP, Network.IsVIP, hv]
    · by_cases hd : n.Type_ = NetworkTypeDynamic
      · simp [Network.IsDHCP, Network.IsVIP, Network.isDynamic, hv, hd]
      · by_cases hu : n.UseDHCP = true
        · simp [Network.IsDHCP, Network.IsVIP, Network.isDynamic, hv, hd, hu]
        · simp only [Network.IsDHCP, Network.IsVIP, Network.isDynamic, hv, hd, hu]
          by_cases hr : n.Resolved = true <;> by_cases hi : n.IP = "" <;>
            by_cases hm : n.Netmask = "" <;> simp [hv, hr, hi, hm]
  · intro hv
    simp [Network.IsDHCP, Network.IsVIP, hv]
  · intro hd _
    have hv : n.Type_ ≠ NetworkTypeVIP := by rw [hd]; exact hne
    simp [Network.IsDHCP, Network.IsVIP, Network.isDynamic, hd, hne]
  · intro hv hd h
    by_cases hu : n.UseDHCP = true
    · simp [Network.IsDHCP, Network.IsVIP, Network.isDynamic, hv, hd, hu] at h
    · simp only [Network.IsDHCP, Network.IsVIP, Network.isDynamic, hv, hd, hu] at h
      by_cases hr : n.Resolved = true <;> by_cases hi : n.IP = "" <;>
        by_cases hm : n.Netmask = "" <;> simp_all

theorem isDHCP_iff_witness :
    sampleVIP.UseDHCP = true ∧ sampleVIP.IsDHCP = false ∧
    sampleDynamic.IsDHCP = true ∧
    (sampleManual.IP ≠ "" ∧ sampleManual.Netmask ≠ "" ∧ sampleManual.Resolved = false) :=
  ⟨rfl, (isDHCP_iff sampleVIP).2.1 rfl, (isDHCP_iff sampleDynamic).2.2.1 rfl rfl,
   (isDHCP_iff sampleManual).2.2.2 (by decide) (by decide) rfl⟩

/-- C10. `IsPreconfigured` is true exactly when every network whose type is not `vip` has
`Preconfigured` set. A `vip` network does not influence the result: replacing it by any
other `vip` network (so also changing its `Preconfigured` flag) leaves the result
unchanged, and the empty collection and a collection of `vip` networks only are
preconfigured. -/
theorem isPreconfigured_iff (ns pre post : Networks) (name : String) (n : Network)
    (flag : Bool) :
    (Networks.IsPreconfigured ns = true ↔
      ∀ e ∈ ns, e.2.Type_ ≠ NetworkTypeVIP → e.2.Preconfigured = true) ∧
    (n.Type_ = NetworkTypeVIP →
      Networks.IsPreconfigured (pre ++ (name, { n with Preconfigured := flag }) :: post) =
        Networks.IsPreconfigured (pre ++ (name, n) :: post)) ∧
    Networks.IsPreconfigured [] = true ∧
    ((∀ e ∈ ns, e.2.Type_ = NetworkTypeVIP) → Networks.IsPreconfigured ns = true) := by
  refine ⟨isPreconfigured_eq_true_iff ns, ?_, rfl, ?_⟩
  · intro hv
    exact isPreconfigured_append_vip pre post name _ n hv hv
  · intro hall
    rw [isPreconfigured_eq_true_iff]
    intro e he hne
    exact absurd (hall e he) hne

theorem isPreconfigured_iff_witness :
    Networks.IsPreconfigured sampleNetworks = true ∧
    Networks.IsPreconfigured [("bosh", sampleManual), ("vip", sampleVIP)] =
      Networks.IsPreconfigured
        [("bosh", sampleManual), ("vip", { sampleVIP with Preconfigured := true })] ∧
    Networks.IsPreconfigured [("vip", sampleVIP)] = true := by
  refine ⟨?_, ?_, ?_⟩
  · exact (isPreconfigured_iff sampleNetworks [] [] "" sampleVIP true).1.2 (by decide)
  · exact ((isPreconfigured_iff [] [("bosh", sampleManual)] [] "vip" sampleVIP true).2.1
      rfl).symm
  · exact (isPreconfigured_iff [("vip", sampleVIP)] [] [] "" sampleVIP true).2.2.2
      (by decide)

/-! ## Lemmas on default selection -/

theorem stringArrayContains_iff (l : List String) (str : String) :
    stringArrayContains l str = true ↔ str ∈ l := by
  induction l with
  | nil => simp [stringArrayContains]
  | cons s rest ih =>
    by_cases h : s = str
    · simp [stringArrayContains, h]
    · have h2 : ¬ str = s := fun e => h e.symm
      simp [stringArrayContains, h, h2, ih]

theorem isDefaultFor_iff (n : Network) (category : String) :
    n.IsDefaultFor category = true ↔ category ∈ n.Default :=
  stringArrayContains_iff n.Default category

theorem defaultNetworkScan_first (category : String) (pre post : Networks)
    (e : String × Network) (hpre : ∀ x ∈ pre, category ∉ x.2.Default)
    (he : category ∈ e.2.Default) :
    defaultNetworkScan category (pre ++ e :: post) = (e.2, true) := by
  induction pre with
  | nil =>
    obtain ⟨k, net⟩ := e
    simp [defaultNetworkScan, (isDefaultFor_iff net category).2 he]
  | cons x pre ih =>
    obtain ⟨k, net⟩ := x
    have hx : ¬ net.IsDefaultFor category = true := fun h =>
      hpre (k, net) (List.mem_cons_self _ _) ((isDefaultFor_iff net category).1 h)
    have ih2 := ih (fun y hy => hpre y (List.mem_cons_of_mem _ hy))
    simp only [List.cons_append, defaultNetworkScan, hx, List.append_eq]
    exact ih2

theorem defaultNetworkScan_none (category : String) (l : Networks)
    (h : ∀ x ∈ l, category ∉ x.2.Default) :
    defaultNetworkScan category l = (Network.zero, false) := by
  induction l with
  | nil => rfl
  | cons x rest ih =>
    obtain ⟨k, net⟩ := x
    have hx : ¬ net.IsDefaultFor category = true := fun hd =>
      h (k, net) (List.mem_cons_self _ _) ((isDefaultFor_iff net category).1 hd)
    simp only [defaultNetworkScan, hx]
    exact ih (fun y hy => h y (List.mem_cons_of_mem _ hy))

theorem defaultNetworkScan_cases (category : String) (l : Networks) :
    (∃ e ∈ l, category ∈ e.2.Default ∧ defaultNetworkScan category l = (e.2, true)) ∨
    ((∀ x ∈ l, category ∉ x.2.Default) ∧
      defaultNetworkScan category l = (Network.zero, false)) := by
  induction l with
  | nil => exact Or.inr ⟨fun _ h => absurd h (List.not_mem_nil _), rfl⟩
  | cons x rest ih =>
    obtain ⟨k, net⟩ := x
    by_cases hx : net.IsDefaultFor category = true
    · left
      refine ⟨(k, net), List.mem_cons_self _ _, (isDefaultFor_iff net category).1 hx, ?_⟩
      simp [defaultNetworkScan, hx]
    · have hstep : defaultNetworkScan category ((k, net) :: rest) =
          defaultNetworkScan category rest := by
        simp [defaultNetworkScan, hx]
      rcases ih with ⟨e, he, hc, hr⟩ | ⟨hall, hr⟩
      · left
        exact ⟨e, List.mem_cons_of_mem _ he, hc, hstep.trans hr⟩
      · right
        refine ⟨?_, hstep.trans hr⟩
        intro y hy
        rcases List.mem_cons.1 hy with rfl | hy
        · exact fun hc => hx ((isDefaultFor_iff net category).2 hc)
        · exact hall y hy

theorem defaultNetworkFor_of_length_ne_one (n : Networks) (category : String)
    (h : n.length ≠ 1) :
    Networks.DefaultNetworkFor n category = defaultNetworkScan category n := by
  simp [Networks.DefaultNetworkFor, h]

/-! ## Default network -/

/-- C11. For every network collection holding exactly one network and for every category,
`DefaultNetworkFor` returns that network with `found = true`, whatever its `Default` list
holds. -/
theorem defaultNetworkFor_single (n : Networks) (category : String) (h : n.length = 1) :
    ∃ name net, n = [(name, net)] ∧
      Networks.DefaultNetworkFor n category = (net, true) := by
  match n, h with
  | [(name, net)], _ => exact ⟨name, net, rfl, rfl⟩

theorem defaultNetworkFor_single_witness :
    samplePlain.Default = [] ∧
    ∃ name net, [("only", samplePlain)] = [(name, net)] ∧
      Networks.DefaultNetworkFor [("only", samplePlain)] "gateway" = (net, true) :=
  ⟨rfl, defaultNetworkFor_single [("only", samplePlain)] "gateway" rfl⟩

/-- C12. For every network collection whose size is not one, taken in any enumeration, and
every category: `DefaultNetworkFor` returns `found = true` with the first network of the
enumeration whose `Default` list contains the category when there is one, and otherwise
`found = false` with the zero-valued `Network`; a network returned with `found = true`
lists the category. -/
theorem defaultNetworkFor_scan (n : Networks) (category : String) (h : n.length ≠ 1) :
    (∀ pre e post, n = pre ++ e :: post → (∀ x ∈ pre, category ∉ x.2.Default) →
      category ∈ e.2.Default → Networks.DefaultNetworkFor n category = (e.2, true)) ∧
    ((∀ x ∈ n, category ∉ x.2.Default) →
      Networks.DefaultNetworkFor n category = (Network.zero, false)) ∧
    (∀ net, Networks.DefaultNetworkFor n category = (net, true) →
      category ∈ net.Default) := by
  rw [defaultNetworkFor_of_length_ne_one n category h]
  refine ⟨?_, defaultNetworkScan_none category n, ?_⟩
  · intro pre e post hn hpre he
    rw [hn]
    exact defaultNetworkScan_first category pre post e hpre he
  · intro net hr
    rcases defaultNetworkScan_cases category n with ⟨e, _, hc, hs⟩ | ⟨_, hs⟩
    · rw [hs] at hr
      simp only [Prod.mk.injEq, and_true] at hr
      rw [← hr]
      exact hc
    · rw [hs] at hr
      simp at hr

theorem defaultNetworkFor_scan_witness :
    Networks.DefaultNetworkFor [("plain", samplePlain), ("bosh", sampleManual),
      ("second", sampleSecond)] "dns" = (sampleManual, true) ∧
    Networks.DefaultNetworkFor [("plain", samplePlain), ("bosh", sampleManual),
      ("second", sampleSecond)] "ssh" = (Network.zero, false) ∧
    Networks.DefaultNetworkFor [] "dns" = (Network.zero, false) :=
  ⟨(defaultNetworkFor_scan [("plain", samplePlain), ("bosh", sampleManual),
      ("second", sampleSecond)] "dns" (by decide)).1 [("plain", samplePlain)]
      ("bosh", sampleManual) [("second", sampleSecond)] rfl (by decide) (by decide),
   (defaultNetworkFor_scan [("plain", samplePlain), ("bosh", sampleManual),
      ("second", sampleSecond)] "ssh" (by decide)).2.1 (by decide),
   (defaultNetworkFor_scan [] "dns" (by decide)).2.1 (by decide)⟩

theorem defaultIPLoop_keep (l : Networks) (ip : String) (hip : ip ≠ "")
    (hnone : ∀ x ∈ l, x.2.Default = []) : defaultIPLoop l ip = ip := by
  induction l with
  | nil => rfl
  | cons x rest ih =>
    obtain ⟨k, net⟩ := x
    have hd : net.Default = [] := hnone (k, net) (List.mem_cons_self _ _)
    simp only [defaultIPLoop, hip, hd, if_false, List.length_nil, Nat.lt_irrefl]
    exact ih (fun y hy => hnone y (List.mem_cons_of_mem _ hy))

theorem defaultIPLoop_first (pre post : Networks) (e : String × Network)
    (hnone : ∀ x ∈ pre ++ e :: post, x.2.Default = [])
    (hpre : ∀ x ∈ pre, x.2.IP = "") (he : e.2.IP ≠ "") :
    defaultIPLoop (pre ++ e :: post) "" = e.2.IP := by
  induction pre with
  | nil =>
    obtain ⟨k, net⟩ := e
    have hd : net.Default = [] := hnone (k, net) (by simp)
    simp only [List.nil_append, defaultIPLoop, hd, if_true, List.length_nil, Nat.lt_irrefl,
      if_false]
    exact defaultIPLoop_keep post net.IP he
      (fun y hy => hnone y (by simp [hy]))
  | cons x pre ih =>
    obtain ⟨k, net⟩ := x
    have hd : net.Default = [] := hnone (k, net) (by simp)
    have hi : net.IP = "" := hpre (k, net) (List.mem_cons_self _ _)
    simp only [List.cons_append, defaultIPLoop, hd, hi, if_true, List.length_nil,
      Nat.lt_irrefl, if_false, List.append_eq]
    exact ih (fun y hy => hnone y (by simp only [List.cons_append, List.mem_cons]; exact Or.inr hy))
      (fun y hy => hpre y (List.mem_cons_of_mem _ hy))

theorem defaultIPLoop_empty (l : Networks) (hnone : ∀ x ∈ l, x.2.Default = [])
    (hip : ∀ x ∈ l, x.2.IP = "") : defaultIPLoop l "" = "" := by
  induction l with
  | nil => rfl
  | cons x rest ih =>
    obtain ⟨k, net⟩ := x
    have hd : net.Default = [] := hnone (k, net) (List.mem_cons_self _ _)
    have hi : net.IP = "" := hip (k, net) (List.mem_cons_self _ _)
    simp only [defaultIPLoop, hd, hi, if_true, List.length_nil, Nat.lt_irrefl, if_false]
    exact ih (fun y hy => hnone y (List.mem_cons_of_mem _ hy))
      (fun y hy => hip y (List.mem_cons_of_mem _ hy))

theorem defaultIPLoop_declared (l : Networks) (ip : String)
    (hsome : ∃ e ∈ l, e.2.Default ≠ [])
    (haddr : ∀ e ∈ l, e.2.Default ≠ [] → e.2.IP ≠ "") :
    ∃ e ∈ l, e.2.Default ≠ [] ∧ defaultIPLoop l ip = e.2.IP := by
  induction l generalizing ip with
  | nil =>
    obtain ⟨e, he, _⟩ := hsome
    exact absurd he (List.not_mem_nil _)
  | cons x rest ih =>
    obtain ⟨k, net⟩ := x
    by_cases hrest : ∃ e ∈ rest, e.2.Default ≠ []
    · obtain ⟨e, he, hd, hr⟩ := ih
        (if 0 < net.Default.length then net.IP else if ip = "" then net.IP else ip) hrest
        (fun y hy => haddr y (List.mem_cons_of_mem _ hy))
      exact ⟨e, List.mem_cons_of_mem _ he, hd, hr⟩
    · have hnone : ∀ y ∈ rest, y.2.Default = [] := by
        intro y hy
        by_contra hne
        exact hrest ⟨y, hy, hne⟩
      have hd : net.Default ≠ [] := by
        obtain ⟨e, he, hde⟩ := hsome
        rcases List.mem_cons.1 he with rfl | he
        · exact hde
        · exact absurd (hnone e he) hde
      have hlen : 0 < net.Default.length := List.length_pos.2 hd
      have hi : net.IP ≠ "" := haddr (k, net) (List.mem_cons_self _ _) hd
      refine ⟨(k, net), List.mem_cons_self _ _, hd, ?_⟩
      simp only [defaultIPLoop, hlen, if_true]
      exact defaultIPLoop_keep rest net.IP hi hnone

theorem defaultIPLoop_append (pre l : Networks) (ip : String) :
    defaultIPLoop (pre ++ l) ip = defaultIPLoop l (defaultIPLoop pre ip) := by
  induction pre generalizing ip with
  | nil => rfl
  | cons x pre ih =>
    obtain ⟨k, net⟩ := x
    simp only [List.cons_append, defaultIPLoop, List.append_eq]
    exact ih _

theorem defaultIPLoop_last (pre post : Networks) (e : String × Network) (ip : String)
    (hd : e.2.Default ≠ []) (hi : e.2.IP ≠ "") (hpost : ∀ x ∈ post, x.2.Default = []) :
    defaultIPLoop (pre ++ e :: post) ip = e.2.IP := by
  obtain ⟨k, net⟩ := e
  have hlen : 0 < net.Default.length := List.length_pos.2 hd
  rw [defaultIPLoop_append]
  simp only [defaultIPLoop, hlen, if_true]
  exact defaultIPLoop_keep post net.IP hi hpost

/-- C14, counterexample. The network `dyn` declares defaults and has an empty IP, the
network `plain` declares none; `DefaultIP` returns the IP of `plain`. -/
theorem defaultIP_declared_counterexample :
    sampleUnresolved.Default ≠ [] ∧ sampleUnresolved.IP = "" ∧ samplePlain.Default = [] ∧
    Networks.DefaultIP [("dyn", sampleUnresolved), ("plain", samplePlain)] =
      ("10.0.3.4", true) ∧
    ¬ (∀ n : Networks, (∃ e ∈ n, e.2.Default ≠ []) →
        ∃ e ∈ n, e.2.Default ≠ [] ∧ (Networks.DefaultIP n).1 = e.2.IP) := by
  refine ⟨by decide, rfl, rfl, rfl, ?_⟩
  intro h
  obtain ⟨e, he, hd, hr⟩ := h [("dyn", sampleUnresolved), ("plain", samplePlain)]
    ⟨("dyn", sampleUnresolved), by simp, by decide⟩
  simp only [List.mem_cons, List.mem_singleton, List.not_mem_nil, or_false] at he
  rcases he with rfl | rfl
  · exact absurd hr (by decide)
  · exact absurd rfl hd

/-- C14, amended. For every network collection in which at least one network has a non-empty
`Default` list and every network with a non-empty `Default` list has a non-empty IP, taken in
any enumeration, `DefaultIP` returns `found = true` with the IP of a network whose `Default`
list is non-empty, namely the last such network of the enumeration. -/
theorem defaultIP_declared (n : Networks) (hsome : ∃ e ∈ n, e.2.Default ≠ [])
    (haddr : ∀ e ∈ n, e.2.Default ≠ [] → e.2.IP ≠ "") :
    (∃ e ∈ n, e.2.Default ≠ [] ∧ Networks.DefaultIP n = (e.2.IP, true)) ∧
    (∀ pre e post, n = pre ++ e :: post → e.2.Default ≠ [] →
      (∀ x ∈ post, x.2.Default = []) → Networks.DefaultIP n = (e.2.IP, true)) := by
  constructor
  · obtain ⟨e, he, hd, hr⟩ := defaultIPLoop_declared n "" hsome haddr
    refine ⟨e, he, hd, ?_⟩
    have hi : e.2.IP ≠ "" := haddr e he hd
    simp only [Networks.DefaultIP, hr, hi, ne_eq, not_false_eq_true, if_true]
  · intro pre e post hn hd hpost
    have he : e ∈ n := by
      rw [hn]
      exact List.mem_append_right pre (List.mem_cons_self e post)
    have hi : e.2.IP ≠ "" := haddr e he hd
    have hr : defaultIPLoop n "" = e.2.IP := by
      rw [hn]
      exact defaultIPLoop_last pre post e "" hd hi hpost
    simp only [Networks.DefaultIP, hr, hi, ne_eq, not_false_eq_true, if_true]

theorem defaultIP_declared_witness :
    (∃ e ∈ [("bosh", sampleManual), ("second", sampleSecond), ("plain", samplePlain)],
      e.2.Default ≠ [] ∧
      Networks.DefaultIP [("bosh", sampleManual), ("second", sampleSecond),
        ("plain", samplePlain)] = (e.2.IP, true)) ∧
    Networks.DefaultIP [("bosh", sampleManual), ("second", sampleSecond),
      ("plain", samplePlain)] = ("10.0.2.4", true) ∧
    Networks.DefaultIP [("plain", samplePlain), ("bosh", sampleManual), ("vip", sampleVIP)] =
      ("10.0.0.4", true) :=
  ⟨(defaultIP_declared [("bosh", sampleManual), ("second", sampleSecond),
      ("plain", samplePlain)] ⟨("bosh", sampleManual), by simp, by decide⟩ (by decide)).1,
   (defaultIP_declared [("bosh", sampleManual), ("second", sampleSecond),
      ("plain", samplePlain)] ⟨("bosh", sampleManual), by simp, by decide⟩ (by decide)).2
      [("bosh", sampleManual)] ("second", sampleSecond) [("plain", samplePlain)] rfl
      (by decide) (by decide),
   (defaultIP_declared [("plain", samplePlain), ("bosh", sampleManual), ("vip", sampleVIP)]
      ⟨("bosh", sampleManual), by simp, by decide⟩ (by decide)).2
      [("plain", samplePlain)] ("bosh", sampleManual) [("vip", sampleVIP)] rfl
      (by decide) (by decide)⟩

/-- C15. For every network collection in which no network has a non-empty `Default` list,
taken in any enumeration: `DefaultIP` returns `found = true` with the IP of the first
network of the enumeration whose IP is non-empty, and the empty string with `found = false`
when no network has a non-empty IP. -/
theorem defaultIP_fallback (n : Networks) (hnone : ∀ x ∈ n, x.2.Default = []) :
    (∀ pre e post, n = pre ++ e :: post → (∀ x ∈ pre, x.2.IP = "") → e.2.IP ≠ "" →
      Networks.DefaultIP n = (e.2.IP, true)) ∧
    ((∀ x ∈ n, x.2.IP = "") → Networks.DefaultIP n = ("", false)) := by
  constructor
  · intro pre e post hn hpre he
    subst hn
    simp only [Networks.DefaultIP, defaultIPLoop_first pre post e hnone hpre he, he, ne_eq,
      not_false_eq_true, if_true]
  · intro hip
    simp only [Networks.DefaultIP, defaultIPLoop_empty n hnone hip, ne_eq, not_true_eq_false,
      if_false]

theorem defaultIP_fallback_witness :
    Networks.DefaultIP [("vip", { sampleVIP with IP := "" }), ("plain", samplePlain),
      ("dyn", sampleDynamic)] = ("10.0.3.4", true) ∧
    Networks.DefaultIP [] = ("", false) :=
  ⟨(defaultIP_fallback [("vip", { sampleVIP with IP := "" }), ("plain", samplePlain),
      ("dyn", sampleDynamic)] (by decide)).1 [("vip", { sampleVIP with IP := "" })]
      ("plain", samplePlain) [("dyn", sampleDynamic)] rfl (by decide) (by decide),
   (defaultIP_fallback [] (by decide)).2 (by decide)⟩

/-! ## Hardware-address lookup -/

theorem mapGet_of_mem {β : Type} (m : List (String × β)) (k : String) (v : β)
    (hkeys : (m.map Prod.fst).Nodup) (hmem : (k, v) ∈ m) : mapGet m k = some v := by
  induction m with
  | nil => exact absurd hmem (List.not_mem_nil _)
  | cons x rest ih =>
    obtain ⟨k2, v2⟩ := x
    simp only [List.map_cons, List.nodup_cons, List.mem_map, not_exists, not_and] at hkeys
    rcases List.mem_cons.1 hmem with heq | hin
    · simp only [Prod.mk.injEq] at heq
      simp [mapGet, heq.1, heq.2]
    · have hne : ¬ k2 = k := fun e => hkeys.1 (k, v) hin e.symm
      simp only [mapGet, hne, if_false]
      exact ih hkeys.2 hin

theorem index_of_mem (n : Networks) (e : String × Network)
    (hkeys : (n.map Prod.fst).Nodup) (hmem : e ∈ n) : n.index e.1 = e.2 := by
  obtain ⟨k, v⟩ := e
  simp [Networks.index, mapGet_of_mem n k v hkeys hmem]

theorem networkForMacLoop_cases (n : Networks) (mac : String) (rest : List (String × Network))
    (hidx : ∀ e ∈ rest, n.index e.1 = e.2) :
    (∃ e ∈ rest, e.2.Mac = mac ∧ networkForMacLoop n mac rest = (e.2, true)) ∨
    ((∀ e ∈ rest, e.2.Mac ≠ mac) ∧ networkForMacLoop n mac rest = (Network.zero, false)) := by
  induction rest with
  | nil => exact Or.inr ⟨fun _ h => absurd h (List.not_mem_nil _), rfl⟩
  | cons x rest ih =>
    obtain ⟨i, net⟩ := x
    have hx : n.index i = net := hidx (i, net) (List.mem_cons_self _ _)
    by_cases hm : net.Mac = mac
    · left
      refine ⟨(i, net), List.mem_cons_self _ _, hm, ?_⟩
      simp [networkForMacLoop, hx, hm]
    · have hstep : networkForMacLoop n mac ((i, net) :: rest) =
          networkForMacLoop n mac rest := by
        simp [networkForMacLoop, hx, hm]
      rcases ih (fun y hy => hidx y (List.mem_cons_of_mem _ hy)) with
        ⟨e, he, hc, hr⟩ | ⟨hall, hr⟩
      · left
        exact ⟨e, List.mem_cons_of_mem _ he, hc, hstep.trans hr⟩
      · right
        refine ⟨?_, hstep.trans hr⟩
        intro y hy
        rcases List.mem_cons.1 hy with rfl | hy
        · exact hm
        · exact hall y hy

/-- C16. For every network collection (a map, so its names are pairwise distinct) and every
string `mac`: `NetworkForMac` returns `found = true` exactly when some network of the
collection has `Mac` equal to `mac`; when found, the returned network is a member of the
collection whose `Mac` is `mac`; when not found, it is the zero-valued `Network`. -/
theorem networkForMac_iff (n : Networks) (mac : String)
    (hkeys : (n.map Prod.fst).Nodup) :
    ((n.NetworkForMac mac).2 = true ↔ ∃ e ∈ n, e.2.Mac = mac) ∧
    ((n.NetworkForMac mac).2 = true →
      ∃ e ∈ n, e.2 = (n.NetworkForMac mac).1 ∧ e.2.Mac = mac) ∧
    ((n.NetworkForMac mac).2 = false → (n.NetworkForMac mac).1 = Network.zero) := by
  unfold Networks.NetworkForMac
  rcases networkForMacLoop_cases n mac n (fun e he => index_of_mem n e hkeys he) with
    ⟨e, he, hc, hr⟩ | ⟨hall, hr⟩
  · rw [hr]
    exact ⟨⟨fun _ => ⟨e, he, hc⟩, fun _ => rfl⟩, fun _ => ⟨e, he, rfl, hc⟩,
      fun h => absurd h (by simp)⟩
  · rw [hr]
    refine ⟨⟨fun h => absurd h (by simp), ?_⟩, fun h => absurd h (by simp), fun _ => rfl⟩
    rintro ⟨e, he, hc⟩
    exact absurd hc (hall e he)

theorem networkForMac_iff_witness :
    sampleNetworks.NetworkForMac "aa:bb:cc:dd:ee:01" = (sampleManual, true) ∧
    ((sampleNetworks.NetworkForMac "aa:bb:cc:dd:ee:01").2 = true ↔
      ∃ e ∈ sampleNetworks, e.2.Mac = "aa:bb:cc:dd:ee:01") ∧
    (sampleNetworks.NetworkForMac "AA:BB:CC:DD:EE:01").1 = Network.zero :=
  ⟨rfl, (networkForMac_iff sampleNetworks "aa:bb:cc:dd:ee:01" (by decide)).1,
   (networkForMac_iff sampleNetworks "AA:BB:CC:DD:EE:01" (by decide)).2.2 rfl⟩

/-! ## Resolver -/

theorem utf8ByteSize_pos_iff (s : String) : 0 < s.utf8ByteSize ↔ s ≠ "" := by
  obtain ⟨cs⟩ := s
  cases cs with
  | nil => simp [String.utf8ByteSize, String.utf8ByteSize.go]
  | cons c cs =>
    have hc := Char.utf8Size_pos c
    have hne : (String.mk (c :: cs)) ≠ "" := by
      intro h
      have h2 : c :: cs = [] := congrArg String.data h
      exact List.cons_ne_nil _ _ h2
    simp only [String.utf8ByteSize, String.utf8ByteSize.go, ne_eq, hne, not_false_eq_true,
      iff_true]
    omega

/-- C17. Override-if-present, wholesale: `GetMbusURL` returns the first element of
`Env.Bosh.Mbus.URLs` when that list is non-empty and the legacy `Mbus` otherwise;
`GetBlobstore` returns the first element of `Env.Bosh.Blobstores` when it is non-empty and
the legacy `Blobstore` otherwise; `GetNtpServers` returns the whole `Env.Bosh.NTP` list when
it is non-empty and the legacy `NTP` otherwise. Each result is one of the two sources. -/
theorem override_if_present (s : Settings) :
    (∀ u rest, s.Env.Bosh.Mbus.URLs = u :: rest → s.GetMbusURL = u) ∧
    (s.Env.Bosh.Mbus.URLs = [] → s.GetMbusURL = s.Mbus) ∧
    (∀ b rest, s.Env.Bosh.Blobstores = b :: rest → s.GetBlobstore = b) ∧
    (s.Env.Bosh.Blobstores = [] → s.GetBlobstore = s.Blobstore) ∧
    (s.Env.Bosh.NTP ≠ [] → s.GetNtpServers = s.Env.Bosh.NTP) ∧
    (s.Env.Bosh.NTP = [] → s.GetNtpServers = s.NTP) ∧
    (s.GetNtpServers = s.Env.Bosh.NTP ∨ s.GetNtpServers = s.NTP) := by
  refine ⟨?_, ?_, ?_, ?_, ?_, ?_, ?_⟩
  · intro u rest h
    simp [Settings.GetMbusURL, h]
  · intro h
    simp [Settings.GetMbusURL, h]
  · intro b rest h
    simp [Settings.GetBlobstore, h]
  · intro h
    simp [Settings.GetBlobstore, h]
  · intro h
    simp [Settings.GetNtpServers, List.length_pos.2 h]
  · intro h
    simp [Settings.GetNtpServers, h]
  · by_cases h : 0 < s.Env.Bosh.NTP.length
    · exact Or.inl (by simp [Settings.GetNtpServers, h])
    · exact Or.inr (by simp [Settings.GetNtpServers, h])

theorem override_if_present_witness :
    sampleSettingsOverride.Mbus = "nats://b" ∧
    sampleSettingsOverride.GetMbusURL = "nats://a" ∧
    sampleSettingsOverride.GetBlobstore = { Type_ := "dav" } ∧
    sampleSettingsOverride.GetNtpServers = ["time.example.org"] ∧
    sampleSettings.GetMbusURL = sampleSettings.Mbus ∧
    sampleSettings.GetBlobstore = sampleSettings.Blobstore ∧
    sampleSettings.GetNtpServers = sampleSettings.NTP :=
  ⟨rfl, (override_if_present sampleSettingsOverride).1 "nats://a" [] rfl,
   (override_if_present sampleSettingsOverride).2.2.1 { Type_ := "dav" } [{ Type_ := "s3" }]
     rfl,
   (override_if_present sampleSettingsOverride).2.2.2.2.1 (by decide),
   (override_if_present sampleSettings).2.1 rfl,
   (override_if_present sampleSettings).2.2.2.1 rfl,
   (override_if_present sampleSettings).2.2.2.2.2.1 rfl⟩

theorem getSwapSizeInBytes_some (e : Env) (v : Nat) (h : e.Bosh.SwapSizeInMB = some v) :
    e.GetSwapSizeInBytes = some ((v * 1048576) % 18446744073709551616) := by
  simp only [Env.GetSwapSizeInBytes, h, mulUint64, uint64Size, Option.some.injEq]
  norm_num
  omega

/-- C18, counterexample. The megabyte value 2 to the power 44 is an unsigned 64-bit value;
the product with 1024 squared is 2 to the power 64, and `GetSwapSizeInBytes` returns a
present zero. -/
theorem getSwapSizeInBytes_counterexample :
    17592186044416 < uint64Size ∧
    sampleHugeSwapEnv.Bosh.SwapSizeInMB = some 17592186044416 ∧
    sampleHugeSwapEnv.GetSwapSizeInBytes = some 0 ∧
    17592186044416 * 1024 * 1024 ≠ 0 ∧
    ¬ (∀ (e : Env) (v : Nat), e.Bosh.SwapSizeInMB = some v → v < uint64Size →
        e.GetSwapSizeInBytes = some (v * 1024 * 1024)) := by
  refine ⟨by decide, rfl, by decide, by decide, ?_⟩
  intro h
  have h2 := h sampleHugeSwapEnv 17592186044416 rfl (by decide)
  rw [getSwapSizeInBytes_some sampleHugeSwapEnv 17592186044416 rfl] at h2
  exact absurd h2 (by decide)

/-- C18, amended. When no swap size is configured `GetSwapSizeInBytes` returns absent, not
zero; when an unsigned 64-bit megabyte value `v` is configured it returns a present value
equal to `v` times 1024 squared reduced modulo 2 to the power 64, which is the integer `v`
times 1024 squared for every `v` below 2 to the power 44; a configured zero gives a present
zero, which differs from absent. -/
theorem getSwapSizeInBytes_spec (e : Env) :
    (e.Bosh.SwapSizeInMB = none → e.GetSwapSizeInBytes = none) ∧
    (∀ v, e.Bosh.SwapSizeInMB = some v → v < uint64Size →
      e.GetSwapSizeInBytes = some ((v * 1024 ^ 2) % uint64Size)) ∧
    (∀ v, e.Bosh.SwapSizeInMB = some v → v < 2 ^ 44 →
      e.GetSwapSizeInBytes = some (v * 1024 ^ 2)) ∧
    (e.Bosh.SwapSizeInMB = some 0 →
      e.GetSwapSizeInBytes = some 0 ∧ e.GetSwapSizeInBytes ≠ none) := by
  refine ⟨?_, ?_, ?_, ?_⟩
  · intro h
    simp [Env.GetSwapSizeInBytes, h]
  · intro v h _
    rw [getSwapSizeInBytes_some e v h]
    norm_num [uint64Size]
  · intro v h hv
    rw [getSwapSizeInBytes_some e v h]
    norm_num at hv ⊢
    omega
  · intro h
    rw [getSwapSizeInBytes_some e 0 h]
    exact ⟨rfl, by simp⟩

theorem getSwapSizeInBytes_spec_witness :
    sampleBoshEnv.GetSwapSizeInBytes = some (4 * 1048576) ∧
    ({} : Env).GetSwapSizeInBytes = none ∧
    sampleHugeSwapEnv.GetSwapSizeInBytes = some ((17592186044416 * 1024 ^ 2) % uint64Size) :=
  ⟨(getSwapSizeInBytes_spec sampleBoshEnv).2.2.1 4 rfl (by decide),
   (getSwapSizeInBytes_spec {}).1 rfl,
   (getSwapSizeInBytes_spec sampleHugeSwapEnv).2.1 17592186044416 rfl (by decide)⟩

/-- C19. `IsNATSMutualTLSEnabled` is true exactly when both `Env.Bosh.Mbus.Cert.Certificate`
and `Env.Bosh.Mbus.Cert.PrivateKey` are non-empty; two environments that agree on these two
fields give the same result, whatever the CA and every other field hold. -/
theorem isNATSMutualTLSEnabled_iff (e e2 : Env) :
    (e.IsNATSMutualTLSEnabled = true ↔
      e.Bosh.Mbus.Cert.Certificate ≠ "" ∧ e.Bosh.Mbus.Cert.PrivateKey ≠ "") ∧
    (e.Bosh.Mbus.Cert.Certificate = e2.Bosh.Mbus.Cert.Certificate →
      e.Bosh.Mbus.Cert.PrivateKey = e2.Bosh.Mbus.Cert.PrivateKey →
      e.IsNATSMutualTLSEnabled = e2.IsNATSMutualTLSEnabled) := by
  constructor
  · simp only [Env.IsNATSMutualTLSEnabled, Bool.and_eq_true, decide_eq_true_eq,
      utf8ByteSize_pos_iff]
  · intro hc hk
    simp only [Env.IsNATSMutualTLSEnabled, hc, hk]

theorem isNATSMutualTLSEnabled_iff_witness :
    sampleBoshEnv.IsNATSMutualTLSEnabled = true ∧
    sampleBoshEnv.IsNATSMutualTLSEnabled =
      Env.IsNATSMutualTLSEnabled
        { Bosh := { Password := "x",
                    Mbus := { Cert := { CA := "", PrivateKey := "key",
                                        Certificate := "cert" } } },
          PersistentDiskFS := "xfs" } :=
  ⟨(isNATSMutualTLSEnabled_iff sampleBoshEnv sampleBoshEnv).1.2 (by decide),
   (isNATSMutualTLSEnabled_iff sampleBoshEnv _).2 rfl rfl⟩

/-- C20. `GetParallel` always returns a present value: 5 when `Env.Bosh.Parallel` is not
configured, and the configured value otherwise, also when it is zero or negative. -/
theorem getParallel_spec (e : Env) :
    (∃ p, e.GetParallel = some p) ∧
    (e.Bosh.Parallel = none → e.GetParallel = some 5) ∧
    (∀ v, e.Bosh.Parallel = some v → e.GetParallel = some v) := by
  refine ⟨⟨_, rfl⟩, ?_, ?_⟩
  · intro h
    simp [Env.GetParallel, h]
  · intro v h
    simp [Env.GetParallel, h]

theorem getParallel_spec_witness :
    ({} : Env).GetParallel = some 5 ∧ sampleBoshEnv.GetParallel = some 0 ∧
    Env.GetParallel { Bosh := { Parallel := some (-3) } } = some (-3) :=
  ⟨(getParallel_spec {}).2.1 rfl, (getParallel_spec sampleBoshEnv).2.2 0 rfl,
   (getParallel_spec { Bosh := { Parallel := some (-3) } }).2.2 (-3) rfl⟩

/-! ## Ephemeral and persistent normalisation compared -/

theorem ephemeral_object (s : Settings) (hash : Hash)
    (he : s.Disks.Ephemeral = .object hash) (hs : deviceFieldsHoldStrings hash = true) :
    s.EphemeralDiskSettings =
      .ok { Path := stringAt hash "path",
            VolumeID := stringAt hash "volume_id",
            DeviceID := stringAt hash "id",
            Lun := stringAt hash "lun",
            HostDeviceID := stringAt hash "host_device_id" } := by
  unfold Settings.EphemeralDiskSettings
  rw [he]
  simp only [assignDeviceFields_eq hash {} hs]
  rfl

theorem recognised_device (hash : Hash) (hs : recognisedFieldsHoldStrings hash = true) :
    deviceFieldsHoldStrings hash = true := by
  simp only [recognisedFieldsHoldStrings, Bool.and_eq_true] at hs
  exact hs.1

/-- C21. Ephemeral and persistent normalisation agree on the device fields: for every raw
value that is a string or a hash whose recognised fields hold strings, every disk id and
every environment, `EphemeralDiskSettings` on that ephemeral value and
`PersistentDiskSettings` on a persistent map holding the value under the id both return, and
the two descriptors have the same `Path`, `VolumeID`, `DeviceID`, `Lun` and `HostDeviceID`;
for a scalar `X` the ephemeral descriptor has `Path = VolumeID = X`. -/
theorem ephemeral_persistent_agree (se sp : Settings) (diskID : String) (v : Value)
    (he : se.Disks.Ephemeral = v) (hp : sp.Disks.Persistent = [(diskID, v)])
    (hv : v.wellShaped = true) :
    ∃ de dp, se.EphemeralDiskSettings = .ok de ∧
      sp.PersistentDiskSettings diskID = .ok (dp, true) ∧
      de.Path = dp.Path ∧ de.VolumeID = dp.VolumeID ∧ de.DeviceID = dp.DeviceID ∧
      de.Lun = dp.Lun ∧ de.HostDeviceID = dp.HostDeviceID ∧
      (∀ X, v = .str X → de.Path = X ∧ de.VolumeID = X) := by
  have hget : mapGet sp.Disks.Persistent diskID = some v := by
    rw [hp]
    simp [mapGet]
  unfold Settings.PersistentDiskSettings
  rw [persistentScan_eq, hget]
  cases v with
  | str x =>
    refine ⟨{ Path := x, VolumeID := x }, _, ?_, persistentEntry_str sp diskID x,
      rfl, rfl, rfl, rfl, rfl, ?_⟩
    · unfold Settings.EphemeralDiskSettings
      rw [he]
      rfl
    · intro X hX
      simp only [Value.str.injEq] at hX
      exact ⟨hX, hX⟩
  | object hash =>
    have hs : recognisedFieldsHoldStrings hash = true := hv
    refine ⟨_, _, ephemeral_object se hash he (recognised_device hash hs),
      persistentEntry_object sp diskID hash hs, rfl, rfl, rfl, rfl, rfl, ?_⟩
    intro X hX
    simp at hX
  | _ => simp [Value.wellShaped] at hv

theorem ephemeral_persistent_agree_witness :
    (∃ de dp, sampleSettingsISCSIEphemeral.EphemeralDiskSettings = .ok de ∧
      Settings.PersistentDiskSettings
        { Disks := { Persistent := [("vol-iscsi", .object sampleISCSIHash)] } }
        "vol-iscsi" = .ok (dp, true) ∧
      de.Path = dp.Path ∧ de.VolumeID = dp.VolumeID ∧ de.DeviceID = dp.DeviceID ∧
      de.Lun = dp.Lun ∧ de.HostDeviceID = dp.HostDeviceID) ∧
    (∃ de, sampleSettings.EphemeralDiskSettings = .ok de ∧
      de.Path = "/dev/sdb" ∧ de.VolumeID = "/dev/sdb") := by
  constructor
  · obtain ⟨de, dp, h1, h2, h3, h4, h5, h6, h7, _⟩ :=
      ephemeral_persistent_agree sampleSettingsISCSIEphemeral
        { Disks := { Persistent := [("vol-iscsi", .object sampleISCSIHash)] } }
        "vol-iscsi" (.object sampleISCSIHash) rfl rfl rfl
    exact ⟨de, dp, h1, h2, h3, h4, h5, h6, h7⟩
  · obtain ⟨de, _, h1, _, _, _, _, _, _, h8⟩ :=
      ephemeral_persistent_agree sampleSettings
        { Disks := { Persistent := [("vol-x", .str "/dev/sdb")] }, Env := sampleEnv }
        "vol-x" (.str "/dev/sdb") rfl rfl rfl
    exact ⟨de, h1, h8 "/dev/sdb" rfl⟩

/-! ## An `iscsi_settings` value that is not a hash -/

theorem mapGet_removeKey_self (hash : Hash) (key : String) :
    mapGet (removeKey hash key) key = none := by
  induction hash with
  | nil => rfl
  | cons x rest ih =>
    obtain ⟨k, v⟩ := x
    by_cases hk : k = key
    · simp only [removeKey, hk, if_true]
      exact ih
    · simp only [removeKey, hk, if_false, mapGet]
      exact ih

theorem mapGet_removeKey_ne (hash : Hash) (key other : String) (hne : other ≠ key) :
    mapGet (removeKey hash key) other = mapGet hash other := by
  induction hash with
  | nil => rfl
  | cons x rest ih =>
    obtain ⟨k, v⟩ := x
    by_cases hk : k = key
    · subst hk
      have hko : ¬ k = other := fun e => hne e.symm
      simp only [removeKey, if_true, mapGet, hko, if_false]
      exact ih
    · by_cases ho : k = other
      · subst ho
        simp only [removeKey, hk, if_false, mapGet, if_true]
      · simp only [removeKey, hk, if_false, mapGet, ho]
        exact ih

theorem assignIfPresent_removeKey {σ : Type} (hash : Hash) (key other : String)
    (assign : σ → String → σ) (cur : σ) (hne : other ≠ key) :
    assignIfPresent (removeKey hash key) other assign cur =
      assignIfPresent hash other assign cur := by
  unfold assignIfPresent
  rw [mapGet_removeKey_ne hash key other hne]

theorem assignDeviceFields_removeKey (hash : Hash) (d : DiskSettings) :
    assignDeviceFields (removeKey hash "iscsi_settings") d = assignDeviceFields hash d := by
  unfold assignDeviceFields
  simp only [assignIfPresent_removeKey hash "iscsi_settings" "path" _ _ (by decide),
    assignIfPresent_removeKey hash "iscsi_settings" "volume_id" _ _ (by decide),
    assignIfPresent_removeKey hash "iscsi_settings" "id" _ _ (by decide),
    assignIfPresent_removeKey hash "iscsi_settings" "lun" _ _ (by decide),
    assignIfPresent_removeKey hash "iscsi_settings" "host_device_id" _ _ (by decide)]

theorem assignISCSI_not_hash (hash : Hash) (d : DiskSettings) (v : Value)
    (hv : mapGet hash "iscsi_settings" = some v) (hnot : v.isHash = false) :
    assignISCSI hash d = .ok d := by
  unfold assignISCSI
  rw [hv]
  cases v <;> first | rfl | simp [Value.isHash] at hnot

theorem assignISCSI_removeKey (hash : Hash) (d : DiskSettings) :
    assignISCSI (removeKey hash "iscsi_settings") d = .ok d := by
  unfold assignISCSI
  rw [mapGet_removeKey_self]

theorem persistentEntry_iscsi_not_hash (s s2 : Settings) (diskID : String) (hash : Hash)
    (v : Value) (hv : mapGet hash "iscsi_settings" = some v) (hnot : v.isHash = false)
    (henv : s2.Env = s.Env) :
    persistentEntry s diskID (.object hash) =
      persistentEntry s2 diskID (.object (removeKey hash "iscsi_settings")) := by
  unfold persistentEntry
  simp only [assignDeviceFields_removeKey, henv]
  cases assignDeviceFields hash { ID := diskID } with
  | error e => rfl
  | ok d =>
    simp only [assignISCSI_not_hash hash d v hv hnot, assignISCSI_removeKey]

theorem recognised_of_iscsi_not_hash (hash : Hash) (v : Value)
    (hv : mapGet hash "iscsi_settings" = some v) (hnot : v.isHash = false)
    (hs : deviceFieldsHoldStrings hash = true) : recognisedFieldsHoldStrings hash = true := by
  simp only [recognisedFieldsHoldStrings, hs, hv, Bool.true_and]
  cases v <;> first | rfl | simp [Value.isHash] at hnot

theorem iscsiOf_not_hash (hash : Hash) (v : Value) (cur : ISCSISettings)
    (hv : mapGet hash "iscsi_settings" = some v) (hnot : v.isHash = false) :
    iscsiOf hash cur = cur := by
  simp only [iscsiOf, hv]
  cases v <;> first | rfl | simp [Value.isHash] at hnot

/-- C22, counterexample. The structured value of the disk `vol-bad-path` holds a string
under `iscsi_settings` and a number under `path`; `PersistentDiskSettings` fails on it. -/
theorem persistentDiskSettings_iscsi_not_hash_counterexample :
    mapGet sampleSettingsISCSIString.Disks.Persistent "vol-bad-path" =
      some (.object sampleBadPathHash) ∧
    mapGet sampleBadPathHash "iscsi_settings" = some (.str "disabled") ∧
    sampleSettingsISCSIString.PersistentDiskSettings "vol-bad-path" =
      .error .interfaceConversion ∧
    ¬ (∀ (s : Settings) (diskID : String) (hash : Hash) (v : Value),
        mapGet s.Disks.Persistent diskID = some (.object hash) →
        mapGet hash "iscsi_settings" = some v → v.isHash = false →
        ∃ d, s.PersistentDiskSettings diskID = .ok (d, true)) := by
  refine ⟨rfl, rfl, rfl, ?_⟩
  intro h
  obtain ⟨d, hd⟩ := h sampleSettingsISCSIString "vol-bad-path" sampleBadPathHash
    (.str "disabled") rfl rfl rfl
  have hfail : sampleSettingsISCSIString.PersistentDiskSettings "vol-bad-path" =
      .error .interfaceConversion := rfl
  rw [hfail] at hd
  exact absurd hd (by simp)

/-- C22, amended. For every structured persistent disk value whose `iscsi_settings` key is
present and holds a value that is not a hash, `PersistentDiskSettings` behaves exactly as on
the same value without the `iscsi_settings` key; when the five device keys hold strings
where they are present it does not fail, and returns `found = true` with the four iSCSI
fields empty and the device fields read from their keys. -/
theorem persistentDiskSettings_iscsi_not_hash (s s2 : Settings) (diskID : String)
    (hash : Hash) (v : Value)
    (h : mapGet s.Disks.Persistent diskID = some (.object hash))
    (hv : mapGet hash "iscsi_settings" = some v) (hnot : v.isHash = false)
    (h2 : mapGet s2.Disks.Persistent diskID =
      some (.object (removeKey hash "iscsi_settings")))
    (henv : s2.Env = s.Env) :
    s.PersistentDiskSettings diskID = s2.PersistentDiskSettings diskID ∧
    (deviceFieldsHoldStrings hash = true →
      ∃ d, s.PersistentDiskSettings diskID = .ok (d, true) ∧
        s2.PersistentDiskSettings diskID = .ok (d, true) ∧
        d.ISCSISettings.Username = "" ∧ d.ISCSISettings.Password = "" ∧
        d.ISCSISettings.InitiatorName = "" ∧ d.ISCSISettings.Target = "" ∧
        d.ID = diskID ∧ d.Path = stringAt hash "path" ∧
        d.VolumeID = stringAt hash "volume_id" ∧ d.DeviceID = stringAt hash "id" ∧
        d.Lun = stringAt hash "lun" ∧ d.HostDeviceID = stringAt hash "host_device_id") := by
  have hsame : s.PersistentDiskSettings diskID = s2.PersistentDiskSettings diskID := by
    unfold Settings.PersistentDiskSettings
    rw [persistentScan_eq, persistentScan_eq, h, h2]
    exact persistentEntry_iscsi_not_hash s s2 diskID hash v hv hnot henv
  refine ⟨hsame, ?_⟩
  intro hs
  have hr := recognised_of_iscsi_not_hash hash v hv hnot hs
  have hentry : s.PersistentDiskSettings diskID = persistentEntry s diskID (.object hash) := by
    unfold Settings.PersistentDiskSettings
    rw [persistentScan_eq, h]
  have hok := hentry.trans (persistentEntry_object s diskID hash hr)
  refine ⟨_, hok, hsame.symm.trans hok, ?_, ?_, ?_, ?_, rfl, rfl, rfl, rfl, rfl, rfl⟩ <;>
    simp only [iscsiOf_not_hash hash v {} hv hnot]

theorem persistentDiskSettings_iscsi_not_hash_witness :
    sampleSettingsISCSIString.PersistentDiskSettings "vol-string" =
      sampleSettingsISCSIRemoved.PersistentDiskSettings "vol-string" ∧
    sampleSettingsISCSIString.PersistentDiskSettings "vol-string" =
      .ok ({ ID := "vol-string", Path := "/dev/sdg", Lun := "1", FileSystemType := "xfs",
             MountOptions := ["noatime", "nodiratime"] }, true) :=
  ⟨(persistentDiskSettings_iscsi_not_hash sampleSettingsISCSIString
      sampleSettingsISCSIRemoved "vol-string" sampleISCSIStringHash (.str "disabled")
      rfl rfl rfl rfl rfl).1, rfl⟩

end settings
